import Mathlib

/-!
# Verification of the `dogging` decorator-based call logger

Shallow embedding of the `dogging` package (final module layout:
`dogging/dog.py`, `dogging/teeth.py`, `dogging/chew_toys.py`,
`dogging/bone.py`).  Python values that the logging engine manipulates are
modelled by the inductive `Value`; Python `dict`s that are only ever built by
successive `dict.update` calls and read by key lookup are modelled as
association lists where the *last* binding of a key wins; `frozenset`s of
arg-names are modelled as `Finset String`; raised exceptions are modelled with
`Except PyError`.

The platform string formatter (`string.Formatter.parse` together with
`formatter_field_name_split`) is treated as the platform boundary: a message
template is modelled by the sequence of parsed segments it yields, each
carrying its literal text and, when present, the root arg-name of its
replacement field (`dogging.bone.get_format_arg_name_from_field_name` returns
exactly that root).
-/

namespace Dogging

/-- One entry of a simplified traceback: the `(filename, line number,
function name)` projection of a stack frame, as produced by
`bone.get_simplified_traceback`.  Call-time tracebacks are modelled directly
as lists of these projections. -/
structure TracebackEntry where
  filename : String
  lineno : Int
  funcName : String
  deriving Repr, DecidableEq

/-- The Python values flowing through the logging engine: function argument
values, special arg-name values, provider results.  Function objects, logger
objects and exception instances are modelled by identifying labels, which is
enough to state identity-preservation properties. -/
inductive Value where
  | noneVal
  | str (s : String)
  | int (n : Int)
  | bool (b : Bool)
  | func (name : String)
  | loggerV (name : String)
  | exc (id : Nat)
  | tb (entries : List TracebackEntry)
  deriving Repr, DecidableEq

/-- The exceptions the engine raises.  Where CPython formats offending names
into the exception message, the model carries the static message text in
`msg` and the formatted-in names as the `names` set (the source joins a
Python set, whose iteration order is arbitrary), so that "the error lists
every offending name" is a statement about `names`. -/
inductive PyError where
  | typeError (msg : String) (names : Finset String)
  | valueError (msg : String) (names : Finset String)
  | nameError (name : String)
  deriving DecidableEq

/-! ## `chew_toys.py` -/

/-- `chew_toys.filter2`: split a list into (matching, non-matching),
preserving order in each part. -/
def filter2 {α : Type} (p : α → Bool) (it : List α) : List α × List α :=
  (it.filter p, it.filter (fun x => !(p x)))

/-- `chew_toys.is_int_like` on strings: whether CPython's `int(s)` succeeds,
i.e. after stripping surrounding whitespace the string is an optional sign
followed by one or more digits. -/
def is_int_like (s : String) : Bool :=
  let cs := (((s.toList.dropWhile Char.isWhitespace).reverse.dropWhile
    Char.isWhitespace).reverse)
  let cs := match cs with
    | '-' :: rest => rest
    | '+' :: rest => rest
    | _ => cs
  !cs.isEmpty && cs.all Char.isDigit

/-- `chew_toys.lambda_dict`: the constant empty dictionary returned by the
shared do-nothing builder. -/
def lambda_dict : List (String × Value) := []

/-- The mutable cell of a `chew_toys.run_once` wrapper: `func.ret` is present
iff `func.done` has been set.  The second component of the state counts the
invocations of the wrapped thunk. -/
def RunOnceState (α : Type) := Option α × Nat

/-- One call of a `chew_toys.run_once` wrapper around the thunk `f`: if the
cell is filled, return the cached value without invoking `f`; otherwise
invoke `f`, fill the cell, and bump the invocation counter. -/
def run_once_call {α : Type} (f : Unit → α) : RunOnceState α → α × RunOnceState α
  | (some v, c) => (v, (some v, c))
  | (none, c) => ((f ()), (some (f ()), c + 1))

/-- A fresh `run_once` cell: thunk not yet invoked. -/
def RunOnceState.fresh {α : Type} : RunOnceState α := (none, 0)

/-! ## `bone.py`

`bone.__all__` exports exactly `get_format_arg_name_from_field_name`,
`iter_traceback` and `get_simplified_traceback`.  In this model stack frames
are already given by their `(filename, lineno, name)` projection, so
`get_simplified_traceback` maps each frame of the walked chain to its
projection. -/

/-- `bone.get_simplified_traceback`. -/
def get_simplified_traceback (tb : List TracebackEntry) : List TracebackEntry :=
  tb.map (fun t => ⟨t.filename, t.lineno, t.funcName⟩)

/-- Modelled from the spec: `next_traceback` is referenced by
`dog.__call__` (error path) but defined in no module of the source.  Per the
spec, the re-raised exception and the simplified traceback must skip the
guard's own interception frame — the first frame of the captured chain — so
it steps to the rest of the chain (`tb.tb_next`). -/
def next_traceback (tb : List TracebackEntry) : List TracebackEntry :=
  tb.tail

/-- Modelled from the spec: `get_caller_pathname_and_line` is invoked
unconditionally by `dog.__call__` but defined in no module of the source.
Per the spec it yields the decoration site's source pathname and line, which
the model receives as ambient inputs. -/
def get_caller_pathname_and_line (callerPathname : String) (callerLine : Int) :
    String × Int :=
  (callerPathname, callerLine)

/-! ## `teeth.py` -/

/-- One segment of `Formatter.parse` output: the literal text preceding the
(optional) replacement field, and for a present field the root arg-name that
`get_format_arg_name_from_field_name` extracts from its field name.  Fields
are modelled after conversion/format-spec validation of the platform
formatter, which is outside the engine. -/
structure ReplacementField where
  literal : String
  fieldName : Option String
  deriving Repr, DecidableEq

/-- A message template, as the sequence of parsed segments the platform
formatter yields for it. -/
abbrev Template := List ReplacementField

/-- `teeth.get_format_arg_names`: the root arg-names of the template's
replacement fields, in order, skipping literal-only segments. -/
def get_format_arg_names (format_string : Template) : List String :=
  format_string.filterMap (fun f => f.fieldName)

/-- `teeth.some_format_arg_names_are_positional`. -/
def some_format_arg_names_are_positional (arg_names : List String) : Bool :=
  arg_names.any (fun arg_name => arg_name == "" || is_int_like arg_name)

/-- `teeth.check_format_arg_names_no_positional`. -/
def check_format_arg_names_no_positional (arg_names : List String) :
    Except PyError Unit :=
  if some_format_arg_names_are_positional arg_names then
    .error (.valueError "Unnamed or positional arg-names in format specification" ∅)
  else
    .ok ()

/-! ## `dog.py` — module constants -/

/-- `logging.DEBUG`. -/
def DEBUG : Int := 10
/-- `logging.INFO`, the default level of a bare-string phase specification. -/
def INFO : Int := 20
/-- `logging.WARNING`. -/
def WARNING : Int := 30
/-- `logging.ERROR`. -/
def ERROR : Int := 40
/-- `logging.CRITICAL`. -/
def CRITICAL : Int := 50

/-- `dog._ENTER_ARGS`: special arg-names supported by the enter phase. -/
def _ENTER_ARGS : Finset String :=
  {"@pathname", "@line", "@logger", "@func"}

/-- `dog._EXIT_ARGS`: special arg-names supported by the exit phase. -/
def _EXIT_ARGS : Finset String :=
  {"@pathname", "@line", "@logger", "@func", "@time", "@ret"}

/-- `dog._ERROR_ARGS`: special arg-names supported by the error phase. -/
def _ERROR_ARGS : Finset String :=
  {"@pathname", "@line", "@logger", "@func", "@time", "@ret", "@err", "@traceback"}

/-- `dog._ALL_ARGS`. -/
def _ALL_ARGS : Finset String :=
  {"@pathname", "@line", "@logger", "@func", "@time", "@ret", "@err", "@traceback"}

/-- The names bound at module level in `dogging/dog.py`: its imports (the
`import` statements and the `__all__`-controlled star imports of
`chew_toys`, `teeth` and `bone`) and its own module-level definitions.
Evaluating a global name not in this list (and not a Python builtin) raises
`NameError` at the point of evaluation. -/
def dogModuleGlobals : List String :=
  [ -- direct imports
   "exc_info", "time", "getcallargs", "getargspec", "wraps", "partial",
   "map", "chain", "Iterable", "logging",
   "DEBUG", "INFO", "WARN", "WARNING", "ERROR", "FATAL", "CRITICAL",
   -- from .chew_toys import *  (chew_toys.__all__)
   "_raise", "filter2", "is_int_like", "unwrap", "lambda_dict", "run_once",
   -- from .teeth import *  (teeth.__all__)
   "get_format_arg_names", "check_format_arg_names_no_positional",
   -- from .bone import *  (bone.__all__)
   "get_format_arg_name_from_field_name", "iter_traceback",
   "get_simplified_traceback",
   -- module-level definitions of dog.py itself
   "__all__", "_COMPUTED_ARG_PREFIX", "_SPECIAL_ARG_PREFIX",
   "_ARG_PATHNAME", "_ARG_LINE", "_ARG_LOGGER", "_ARG_FUNC",
   "_ARG_TIME", "_ARG_RET", "_ARG_ERR", "_ARG_TRACEBACK",
   "_ENTER_ARGS", "_EXIT_ARGS", "_ERROR_ARGS", "_ALL_ARGS",
   "resolve_specification_string", "resolve_specification_sequence",
   "resolve_specification_none", "SPEC_RESOLVERS", "resolve_specification",
   "separate_arg_names_by_prefix", "separate_special_arg_names",
   "separate_computed_arg_names", "check_special_arg_names_support",
   "Message", "DynamicAttributesBase", "ExtraAttributes", "ComputedArgNames",
   "join_dynamic_attributes", "iter_dynamic_attribute_requested_arg_names",
   "dog"]

/-- Evaluating a global name in the `dogging.dog` module: succeeds when the
name is bound at module level, raises `NameError` otherwise. -/
def resolveGlobal (n : String) : Except PyError Unit :=
  if n ∈ dogModuleGlobals then .ok () else .error (.nameError n)

/-! ## `dog.py` — dynamic attribute providers -/

/-- A user subclass of `DynamicAttributesBase` (i.e. of `ExtraAttributes` or
`ComputedArgNames`): its non-underscore zero-argument methods (`attrs`, each
a function of the `self._args` context mapping) and its `__args__`
class attribute (`declaredArgs`). -/
structure DynClass where
  attrs : List (String × (List (String × Value) → Value))
  declaredArgs : List String

/-- The synthetic class `join_dynamic_attributes` forges: represented by its
method-resolution order restricted to the user classes (the common library
bases contribute no non-underscore methods and empty `__args__`). -/
structure JoinedDyn where
  mro : List DynClass

/-- `dog.join_dynamic_attributes`: the classes become the bases of a new
type in reverse order, so the method-resolution order visits classes later
in the input sequence first. -/
def join_dynamic_attributes (dynamic_attributes : List DynClass) : JoinedDyn :=
  ⟨dynamic_attributes.reverse⟩

/-- Attribute lookup on (an instance of) a joined class: the first class in
method-resolution order that defines the method wins. -/
def JoinedDyn.getattr (j : JoinedDyn) (name : String) :
    Option (List (String × Value) → Value) :=
  (j.mro.findSome? (fun c => c.attrs.find? (fun p => p.1 == name))).map (·.2)

/-- The non-underscore attribute names of a joined class (`dir` filtered as
in `DynamicAttributesBase.__iter__`), deduplicated as attribute dictionaries
are. -/
def JoinedDyn.attrNames (j : JoinedDyn) : List String :=
  ((j.mro.map (fun c => c.attrs.map (·.1))).flatten).dedup

/-- `dog.iter_dynamic_attribute_requested_arg_names`: chain the `__args__`
of every class in the joined class's method-resolution order. -/
def iter_dynamic_attribute_requested_arg_names (dynamic_attributes : JoinedDyn) :
    List String :=
  (dynamic_attributes.mro.map (fun c => c.declaredArgs)).flatten

/-! ## `dog.py` — phase-specification resolution -/

/-- An element of a sequence phase-specification, tagged by how
`resolve_specification_sequence` type-dispatches on it: an `int` instance, a
string (template, given by its parsed form), a subclass of
`ExtraAttributes`, a subclass of `ComputedArgNames`, some other class, or a
non-class value of some other type.  The latter two carry the display name
used in the raised `TypeError`. -/
inductive SpecPart where
  | intPart (n : Int)
  | strPart (fmt : Template)
  | extraPart (c : DynClass)
  | computerPart (c : DynClass)
  | otherClass (typeName : String)
  | otherValue (typeName : String)

/-- A phase specification as `resolve_specification` type-dispatches on it:
`None`, a string (template, in parsed form), a `tuple`/`list` sequence, or a
value of any other type (raising `TypeError`). -/
inductive Spec where
  | noSpec
  | strSpec (fmt : Template)
  | seqSpec (parts : List SpecPart)
  | otherSpec (reprText : String)

/-- The result quadruple `(level, format_string, extras, computers)` of a
specification resolver. -/
structure ResolvedSpec where
  level : Option Int
  fmt : Option Template
  extras : List DynClass
  computers : List DynClass

/-- `dog.resolve_specification_string`. -/
def resolve_specification_string (spec : Template) : ResolvedSpec :=
  ⟨some INFO, some spec, [], []⟩

/-- `dog.resolve_specification_none`. -/
def resolve_specification_none : ResolvedSpec :=
  ⟨none, none, [], []⟩

/-- The `for part in spec` loop of `resolve_specification_sequence`:
`level` and `format_string` keep the last matching element, extras and
computers are appended in order, and an element of unrecognized type raises
`TypeError` immediately. -/
def resolve_seq_loop :
    List SpecPart → Int → Option Template → List DynClass → List DynClass →
    Except PyError (Int × Option Template × List DynClass × List DynClass)
  | [], level, fmt, extras, computers => .ok (level, fmt, extras, computers)
  | part :: rest, level, fmt, extras, computers =>
    match part with
    | .intPart n => resolve_seq_loop rest n fmt extras computers
    | .strPart f => resolve_seq_loop rest level (some f) extras computers
    | .extraPart c => resolve_seq_loop rest level fmt (extras ++ [c]) computers
    | .computerPart c => resolve_seq_loop rest level fmt extras (computers ++ [c])
    | .otherClass tn =>
        .error (.typeError "unsupported type for sequence specification" {tn})
    | .otherValue tn =>
        .error (.typeError "unsupported type for sequence specification" {tn})

/-- `dog.resolve_specification_sequence`: run the loop starting from the
default level `INFO`, then require that some element supplied the format
string. -/
def resolve_specification_sequence (spec : List SpecPart) :
    Except PyError ResolvedSpec := do
  let (level, format_string, extras, computers) ← resolve_seq_loop spec INFO none [] []
  match format_string with
  | none =>
      .error (.valueError "must specify a format string in a sequence specification" ∅)
  | some f => .ok ⟨some level, some f, extras, computers⟩

/-- `dog.resolve_specification`: dispatch on the specification's type via
`SPEC_RESOLVERS`, raising `TypeError` for an unsupported type. -/
def resolve_specification : Spec → Except PyError ResolvedSpec
  | .noSpec => .ok resolve_specification_none
  | .strSpec f => .ok (resolve_specification_string f)
  | .seqSpec parts => resolve_specification_sequence parts
  | .otherSpec r => .error (.typeError "Unsupported specification" {r})

/-! ## `dog.py` — arg-name classification -/

/-- `str.startswith` specialized to the one-character markers the engine
uses: whether the string's first character is `c`. -/
def starts_with_char (s : String) (c : Char) : Bool :=
  s.toList.head? == some c

/-- `dog.separate_special_arg_names`: split into (special, regular) by the
`'@'` marker (`separate_arg_names_by_prefix` with `_SPECIAL_ARG_PREFIX`). -/
def separate_special_arg_names (arg_names : List String) :
    List String × List String :=
  filter2 (fun arg_name => starts_with_char arg_name '@') arg_names

/-- `dog.separate_computed_arg_names`: split into (computed, rest) by the
`'>'` marker (`separate_arg_names_by_prefix` with `_COMPUTED_ARG_PREFIX`). -/
def separate_computed_arg_names (arg_names : List String) :
    List String × List String :=
  filter2 (fun arg_name => starts_with_char arg_name '>') arg_names

/-- `dog.check_special_arg_names_support`: a nonempty special set outside
the supported set of its phase raises `ValueError` whose message formats in
every offending name (`arg_names - supported`). -/
def check_special_arg_names_support (phase : String)
    (arg_names supported : Finset String) : Except PyError Unit :=
  if arg_names.Nonempty ∧ ¬ arg_names ⊆ supported then
    .error (.valueError ("unsupported special arg-names for " ++ phase ++ " logging phase")
      (arg_names \ supported))
  else
    .ok ()

/-! ## dictionaries and message rendering -/

/-- Key lookup in a dictionary built by successive `dict.update` calls: the
last binding of the key wins. -/
def dlookup (m : List (String × Value)) (k : String) : Option Value :=
  match m with
  | [] => none
  | (k', v) :: rest =>
    match dlookup rest k with
    | some v' => some v'
    | none => if k' == k then some v else none

/-- `str()` of a model value, for substitution into a rendered message.
Non-string values are rendered representationally; the claims under
verification only inspect renderings through equality of the underlying
mapping. -/
def pyStr : Value → String
  | .noneVal => "None"
  | .str s => s
  | .int n => toString n
  | .bool b => if b then "True" else "False"
  | .func name => name
  | .loggerV name => name
  | .exc id => "exc" ++ toString id
  | .tb entries => toString (entries.map (fun e => (e.filename, e.lineno, e.funcName)))

/-- `Message.__str__`: `self.message.format(**self.builder())` — substitute
each replacement field's value from the built mapping, raising `KeyError`
when a referenced arg-name is absent.  (`PyError.nameError` doubles as the
missing-key error here; no claim distinguishes the two.) -/
def render (message : Template) (m : String → Option Value) :
    Except PyError String :=
  match message with
  | [] => .ok ""
  | f :: rest =>
    match f.fieldName with
    | none => (render rest m).map (fun s => f.literal ++ s)
    | some n =>
      match m n with
      | some v => (render rest m).map (fun s => f.literal ++ pyStr v ++ s)
      | none => .error (.nameError n)

/-! ## `dog.py` — the `dog` class: construction -/

/-- The per-instance state a fully-constructed `dog` carries (the `__slots__`
of the class, minus the `logger`/`_catch` collaborators which the call-time
model receives as call-context inputs). -/
structure DogConfig where
  enter_level : Option Int
  exit_level : Option Int
  error_level : Option Int
  enter_format : Option Template
  exit_format : Option Template
  error_format : Option Template
  enter_extras : Option JoinedDyn
  exit_extras : Option JoinedDyn
  error_extras : Option JoinedDyn
  enter_computer : Option JoinedDyn
  exit_computer : Option JoinedDyn
  error_computer : Option JoinedDyn
  enter_computed_arg_names : Finset String
  exit_computed_arg_names : Finset String
  error_computed_arg_names : Finset String
  enter_special_arg_names : Finset String
  exit_special_arg_names : Finset String
  error_special_arg_names : Finset String
  enter_regular_arg_names : Finset String
  exit_regular_arg_names : Finset String
  error_regular_arg_names : Finset String
  propagate : Bool
  exc_info : Bool
  default_ret : Value
  default_ret_arg : List (String × Value)

/-- The `_add_extras` merge for one phase: per-phase provider classes from a
sequence specification are joined after (overriding) the decorator-level
extras already installed, via `join_extras`. -/
def add_phase_extras (cur : Option JoinedDyn) (phase_extras : List DynClass) :
    Option JoinedDyn :=
  if phase_extras.isEmpty then cur
  else
    match cur with
    | some j => some ⟨phase_extras.reverse ++ j.mro⟩
    | none => some (join_dynamic_attributes phase_extras)

/-- One phase of `dog._get_phases_arg_names`: the arg-names of the format
string's replacement fields (empty when the phase has no format string),
positional-checked, then chained with the `__args__` requested by the
phase's extras and computer classes. -/
def phase_arg_names (fmt : Option Template) (extras computer : Option JoinedDyn) :
    Except PyError (List String) := do
  let arg_names := match fmt with
    | some f => get_format_arg_names f
    | none => []
  if arg_names.isEmpty then pure () else check_format_arg_names_no_positional arg_names
  let arg_names := match extras with
    | some e => arg_names ++ iter_dynamic_attribute_requested_arg_names e
    | none => arg_names
  let arg_names := match computer with
    | some c => arg_names ++ iter_dynamic_attribute_requested_arg_names c
    | none => arg_names
  return arg_names

/-- One phase of `dog._separate_phase_arg_names_to_categories`: a phase with
no format string keeps three empty frozensets (its providers' requests are
dropped); otherwise the names are split off by the computed marker, then the
special marker, and frozen. -/
def separate_phase_arg_names (fmt : Option Template) (arg_names : List String) :
    Finset String × Finset String × Finset String :=
  match fmt with
  | none => (∅, ∅, ∅)
  | some _ =>
    let (computed, rest) := separate_computed_arg_names arg_names
    let (special, regular) := separate_special_arg_names rest
    (computed.toFinset, special.toFinset, regular.toFinset)

/-- One phase of `dog._validate_computed_arg_names`: computed arg-names must
not continue with an underscore after the `'>'` marker, and each one's
unmarked name must be among the non-underscore attributes supplied by the
phase's (joined) computer class — `dir(None)` supplies none. -/
def validate_computed_phase (arg_names : Finset String) (computer : Option JoinedDyn) :
    Except PyError Unit := do
  if ∃ arg_name ∈ arg_names, arg_name.toList[1]? = some '_' then
    .error (.valueError "Computed arg-names should not begin with an underscore" ∅)
  else
    let supplied : Finset String := match computer with
      | some j => j.attrNames.toFinset
      | none => ∅
    if ∃ arg_name ∈ arg_names, arg_name.drop 1 ∉ supplied then
      .error (.valueError "Not all computed arg name definitions are supplied" ∅)
    else
      .ok ()

/-- `dog.__init__`: install the simple attributes and `_default_ret_arg`,
join decorator-level extras for all phases, resolve the three phase
specifications (merging per-phase extras and joining computers), parse the
format strings into categorized arg-name sets, and run the special-name and
computed-name validations — any failure raises out of construction. -/
def dog_init (enter exit error : Spec) (extras : List DynClass)
    (propagate_exception : Bool) (exc_info : Bool) (default_ret : Value) :
    Except PyError DogConfig := do
  let default_ret_arg :=
    if propagate_exception then [] else [("@ret", default_ret)]
  -- _set_extras_for_all_phases (only when extras is truthy)
  let extras0 : Option JoinedDyn :=
    if extras.isEmpty then none else some (join_dynamic_attributes extras)
  -- _resolve_specifications
  let rEnter ← resolve_specification enter
  let rExit ← resolve_specification exit
  let rError ← resolve_specification error
  let enter_extras := add_phase_extras extras0 rEnter.extras
  let exit_extras := add_phase_extras extras0 rExit.extras
  let error_extras := add_phase_extras extras0 rError.extras
  let enter_computer :=
    if rEnter.computers.isEmpty then none else some (join_dynamic_attributes rEnter.computers)
  let exit_computer :=
    if rExit.computers.isEmpty then none else some (join_dynamic_attributes rExit.computers)
  let error_computer :=
    if rError.computers.isEmpty then none else some (join_dynamic_attributes rError.computers)
  -- _parse_format_strings = _get_phases_arg_names ∘ _separate_phase_arg_names_to_categories
  let enter_arg_names ← phase_arg_names rEnter.fmt enter_extras enter_computer
  let exit_arg_names ← phase_arg_names rExit.fmt exit_extras exit_computer
  let error_arg_names ← phase_arg_names rError.fmt error_extras error_computer
  let enterSets := separate_phase_arg_names rEnter.fmt enter_arg_names
  let exitSets := separate_phase_arg_names rExit.fmt exit_arg_names
  let errorSets := separate_phase_arg_names rError.fmt error_arg_names
  -- _validate_special_arg_names
  check_special_arg_names_support "enter" enterSets.2.1 _ENTER_ARGS
  check_special_arg_names_support "exit" exitSets.2.1 _EXIT_ARGS
  check_special_arg_names_support "error" errorSets.2.1 _ERROR_ARGS
  if propagate_exception ∧ "@ret" ∈ errorSets.2.1 then
    throw (.valueError "Can not use @ret in error message when allowing error propagation" ∅)
  -- _validate_computed_arg_names
  validate_computed_phase enterSets.1 enter_computer
  validate_computed_phase exitSets.1 exit_computer
  validate_computed_phase errorSets.1 error_computer
  return {
    enter_level := rEnter.level, exit_level := rExit.level, error_level := rError.level
    enter_format := rEnter.fmt, exit_format := rExit.fmt, error_format := rError.fmt
    enter_extras := enter_extras, exit_extras := exit_extras, error_extras := error_extras
    enter_computer := enter_computer, exit_computer := exit_computer
    error_computer := error_computer
    enter_computed_arg_names := enterSets.1, exit_computed_arg_names := exitSets.1
    error_computed_arg_names := errorSets.1
    enter_special_arg_names := enterSets.2.1, exit_special_arg_names := exitSets.2.1
    error_special_arg_names := errorSets.2.1
    enter_regular_arg_names := enterSets.2.2, exit_regular_arg_names := exitSets.2.2
    error_regular_arg_names := errorSets.2.2
    propagate := propagate_exception, exc_info := exc_info
    default_ret := default_ret, default_ret_arg := default_ret_arg
  }

/-! ## `dog.py` — decoration -/

/-- The `inspect.getargspec` view of the wrapped function: its declared
formal parameter names, and the names (when present) of its `*`-catch-all
and `**`-catch-all parameters. -/
structure FuncSig where
  args : List String
  varargs : Option String
  keywords : Option String
  deriving Repr, DecidableEq

/-- The set `func_args` of `dog._check_function_args`: the declared
parameter names plus the *names* of the variadic catch-alls (the source adds
`varargs` and `keywords` to the set as they are, `None` included — the
`None` element can never equal a string arg-name, so it is dropped here). -/
def func_arg_set (sig : FuncSig) : Finset String :=
  sig.args.toFinset ∪ sig.varargs.toList.toFinset ∪ sig.keywords.toList.toFinset

/-- `dog._check_function_args`: collect, across the three phases, every
regular arg-name referenced by the dog but absent from the function's
parameter-name set, and raise a single `TypeError` listing all of them. -/
def dog_check_function_args (d : DogConfig) (sig : FuncSig) :
    Except PyError Unit :=
  let func_args := func_arg_set sig
  let unrecognized : Finset String :=
    (d.enter_regular_arg_names \ func_args) ∪
    (d.exit_regular_arg_names \ func_args) ∪
    (d.error_regular_arg_names \ func_args)
  if unrecognized.Nonempty then
    .error (.typeError
      "Function does not have these arguments, which were referenced in the dog"
      unrecognized)
  else
    .ok ()

/-- The decoration-time constants `dog.__call__` bakes into the wrapper
closure: the phase activation and per-special-arg-name need flags, the
cached configuration, and the decoration site's pathname/line. -/
structure WrapperStatic where
  propagate : Bool
  exc_info : Bool
  default_ret : Value
  /-- `build_default_return_arg` as selected at decoration time: the dog's
  `_default_ret_arg` when the error phase requests `@ret`, else the
  `lambda_dict` constant. -/
  default_return_builder : List (String × Value)
  need_log_enter : Bool
  need_log_exit : Bool
  need_log_error : Bool
  enter_level : Option Int
  exit_level : Option Int
  error_level : Option Int
  enter_format : Option Template
  exit_format : Option Template
  error_format : Option Template
  enter_extras : Option JoinedDyn
  exit_extras : Option JoinedDyn
  error_extras : Option JoinedDyn
  enter_computer : Option JoinedDyn
  exit_computer : Option JoinedDyn
  error_computer : Option JoinedDyn
  enter_computed_arg_names : Finset String
  exit_computed_arg_names : Finset String
  error_computed_arg_names : Finset String
  enter_needs_func_arguments : Bool
  exit_needs_func_arguments : Bool
  error_needs_func_arguments : Bool
  enter_needs_pathname_arg : Bool
  enter_needs_line_arg : Bool
  enter_needs_logger_arg : Bool
  enter_needs_func_arg : Bool
  exit_needs_pathname_arg : Bool
  exit_needs_line_arg : Bool
  exit_needs_logger_arg : Bool
  exit_needs_func_arg : Bool
  exit_needs_time_arg : Bool
  exit_needs_return_arg : Bool
  error_needs_pathname_arg : Bool
  error_needs_line_arg : Bool
  error_needs_logger_arg : Bool
  error_needs_func_arg : Bool
  error_needs_time_arg : Bool
  error_needs_error_arg : Bool
  error_needs_traceback_arg : Bool
  error_needs_return_arg : Bool
  pathname : String
  line : Int

/-- The flag computations of `dog.__call__` (lines between the function-arg
check and the `wrapper` definition), given the decoration site returned by
`get_caller_pathname_and_line`. -/
def mk_wrapper_static (d : DogConfig) (pathname : String) (line : Int) :
    WrapperStatic :=
  let error_needs_return_arg := "@ret" ∈ d.error_special_arg_names
  { propagate := d.propagate
    exc_info := d.exc_info
    default_ret := d.default_ret
    default_return_builder :=
      if error_needs_return_arg then d.default_ret_arg else lambda_dict
    need_log_enter := d.enter_format.isSome
    need_log_exit := d.exit_format.isSome
    need_log_error := d.error_format.isSome
    enter_level := d.enter_level, exit_level := d.exit_level
    error_level := d.error_level
    enter_format := d.enter_format, exit_format := d.exit_format
    error_format := d.error_format
    enter_extras := d.enter_extras, exit_extras := d.exit_extras
    error_extras := d.error_extras
    enter_computer := d.enter_computer, exit_computer := d.exit_computer
    error_computer := d.error_computer
    enter_computed_arg_names := d.enter_computed_arg_names
    exit_computed_arg_names := d.exit_computed_arg_names
    error_computed_arg_names := d.error_computed_arg_names
    enter_needs_func_arguments := d.enter_regular_arg_names.Nonempty
    exit_needs_func_arguments := d.exit_regular_arg_names.Nonempty
    error_needs_func_arguments := d.error_regular_arg_names.Nonempty
    enter_needs_pathname_arg := "@pathname" ∈ d.enter_special_arg_names
    enter_needs_line_arg := "@line" ∈ d.enter_special_arg_names
    enter_needs_logger_arg := "@logger" ∈ d.enter_special_arg_names
    enter_needs_func_arg := "@func" ∈ d.enter_special_arg_names
    exit_needs_pathname_arg := "@pathname" ∈ d.exit_special_arg_names
    exit_needs_line_arg := "@line" ∈ d.exit_special_arg_names
    exit_needs_logger_arg := "@logger" ∈ d.exit_special_arg_names
    exit_needs_func_arg := "@func" ∈ d.exit_special_arg_names
    exit_needs_time_arg := "@time" ∈ d.exit_special_arg_names
    exit_needs_return_arg := "@ret" ∈ d.exit_special_arg_names
    error_needs_pathname_arg := "@pathname" ∈ d.error_special_arg_names
    error_needs_line_arg := "@line" ∈ d.error_special_arg_names
    error_needs_logger_arg := "@logger" ∈ d.error_special_arg_names
    error_needs_func_arg := "@func" ∈ d.error_special_arg_names
    error_needs_time_arg := "@time" ∈ d.error_special_arg_names
    error_needs_error_arg := "@err" ∈ d.error_special_arg_names
    error_needs_traceback_arg := "@traceback" ∈ d.error_special_arg_names
    error_needs_return_arg := error_needs_return_arg
    pathname := pathname
    line := line }

/-- `dog.__call__` as written in the source: unwrap the target (the model
works on the unwrapped signature), run `_check_function_args`, then — still
at decoration time — evaluate the global name `get_caller_pathname_and_line`
in the `dogging.dog` module before the wrapper closure can be built and
returned.  The `pathname`/`line` arguments are the values the helper would
yield if it resolved. -/
def dog_call (d : DogConfig) (sig : FuncSig) (pathname : String) (line : Int) :
    Except PyError WrapperStatic := do
  dog_check_function_args d sig
  resolveGlobal "get_caller_pathname_and_line"
  return mk_wrapper_static d pathname line

/-- `dog.__call__` with the missing helper modelled from the spec
(`get_caller_pathname_and_line` supplying the decoration site): the
decoration pipeline used by the call-time claims. -/
def dog_call_modelled (d : DogConfig) (sig : FuncSig)
    (callerPathname : String) (callerLine : Int) :
    Except PyError WrapperStatic := do
  dog_check_function_args d sig
  let (pathname, line) := get_caller_pathname_and_line callerPathname callerLine
  return mk_wrapper_static d pathname line

/-! ## `dog.py` — call time -/

/-- What the wrapped call does: return a value, or raise an exception that
the dog's `catch` filter matches / does not match.  The exception instance
is `excVal`; `tbChain` is the traceback `sys.exc_info()` captures inside the
wrapper's `except` clause — its first frame is the wrapper's own. -/
inductive Outcome where
  | ret (v : Value)
  | raiseMatch (excVal : Value) (tbChain : List TracebackEntry)
  | raiseNoMatch (excVal : Value) (tbChain : List TracebackEntry)

/-- The per-invocation inputs of one wrapper call: the logger currently
installed on the wrapper, the `getcallargs` binding of this call's actual
arguments, the wrapped function object, the clock readings the wrapper would
take, and the call's outcome. -/
structure CallCtx where
  logger : Value
  callArgs : List (String × Value)
  funcObj : Value
  startTime : Int
  endTime : Int
  outcome : Outcome

/-- One emission through the logger collaborator
(`logger.log(level, Message(message, builder), exc_info=..., extra=...)`):
the level, the message template, the fully-built context mapping the
`Message` renders from, and the evaluated extra attributes (if an extras
class is attached). -/
structure LogEvent where
  level : Option Int
  msgFormat : Template
  mapping : List (String × Value)
  extra : Option (List (String × Value))
  exc_info : Bool

/-- `dog._log`: fold the phase's builders into the basic mapping
(`dict.update` in order), instantiate the extras class over it (every
non-underscore attribute evaluated at record creation), and render the
message from the computed arg-names (each computed once, from the frozenset)
updated with the basic mapping.  A computed name whose method is missing
would raise `AttributeError` in CPython; construction-time validation
(`_validate_computed_arg_names`) makes that unreachable, and the model maps
it to `Value.noneVal`. -/
def dog_log (excInfo : Bool) (level : Option Int) (message : Template)
    (extras computer : Option JoinedDyn) (arg_names_to_compute : Finset String)
    (builders : List (List (String × Value))) : LogEvent :=
  let basic := builders.flatten
  let extra := extras.map (fun j =>
    j.attrNames.map (fun n => (n, ((j.getattr n).getD (fun _ => Value.noneVal)) basic)))
  let mapping :=
    match computer with
    | some j =>
      ((arg_names_to_compute.sort (· ≤ ·)).map (fun n =>
        (n, ((j.getattr (n.drop 1)).getD (fun _ => Value.noneVal)) basic))) ++ basic
    | none => basic
  ⟨level, message, mapping, extra, excInfo⟩

/-- The result of one wrapper call: a returned value, or a re-raised
exception carried with the traceback the caller observes. -/
inductive WrapperResult where
  | returned (v : Value)
  | raised (excVal : Value) (tbChain : List TracebackEntry)

/-- The `wrapper` closure of `dog.__call__`: emit the enter-phase event (if
active) from exactly the builders its template and providers need, run the
wrapped callable, then — on a caught exception — emit the error-phase event
and either re-raise the very same exception with the guard's frame stripped
from the traceback or substitute the default return value; finally emit the
exit-phase event (if active and reached) and return the value. -/
def run_wrapper (w : WrapperStatic) (ctx : CallCtx) :
    List LogEvent × WrapperResult :=
  let build_pathname_arg : List (String × Value) := [("@pathname", .str w.pathname)]
  let build_line_arg : List (String × Value) := [("@line", .int w.line)]
  let build_function_arg : List (String × Value) := [("@func", ctx.funcObj)]
  let build_logger_arg : List (String × Value) := [("@logger", ctx.logger)]
  let build_time_arg : List (String × Value) :=
    [("@time", .int (ctx.endTime - ctx.startTime))]
  let enterEvents : List LogEvent :=
    if w.need_log_enter then
      [dog_log w.exc_info w.enter_level (w.enter_format.getD [])
        w.enter_extras w.enter_computer w.enter_computed_arg_names
        [if w.enter_needs_pathname_arg then build_pathname_arg else lambda_dict,
         if w.enter_needs_line_arg then build_line_arg else lambda_dict,
         if w.enter_needs_func_arguments then ctx.callArgs else lambda_dict,
         if w.enter_needs_logger_arg then build_logger_arg else lambda_dict,
         if w.enter_needs_func_arg then build_function_arg else lambda_dict]]
    else []
  let exitEvents (ret : Value) : List LogEvent :=
    if w.need_log_exit then
      [dog_log w.exc_info w.exit_level (w.exit_format.getD [])
        w.exit_extras w.exit_computer w.exit_computed_arg_names
        [if w.exit_needs_pathname_arg then build_pathname_arg else lambda_dict,
         if w.exit_needs_line_arg then build_line_arg else lambda_dict,
         if w.exit_needs_func_arguments then ctx.callArgs else lambda_dict,
         if w.exit_needs_logger_arg then build_logger_arg else lambda_dict,
         if w.exit_needs_func_arg then build_function_arg else lambda_dict,
         if w.exit_needs_time_arg then build_time_arg else lambda_dict,
         if w.exit_needs_return_arg then [("@ret", ret)] else lambda_dict]]
    else []
  match ctx.outcome with
  | .ret v =>
    (enterEvents ++ exitEvents v, .returned v)
  | .raiseMatch excVal tbChain =>
    let errorEvents : List LogEvent :=
      if w.need_log_error then
        [dog_log w.exc_info w.error_level (w.error_format.getD [])
          w.error_extras w.error_computer w.error_computed_arg_names
          [if w.error_needs_pathname_arg then build_pathname_arg else lambda_dict,
           if w.error_needs_line_arg then build_line_arg else lambda_dict,
           if w.error_needs_func_arguments then ctx.callArgs else lambda_dict,
           if w.error_needs_logger_arg then build_logger_arg else lambda_dict,
           if w.error_needs_func_arg then build_function_arg else lambda_dict,
           if w.error_needs_time_arg then build_time_arg else lambda_dict,
           if w.error_needs_error_arg then [("@err", excVal)] else lambda_dict,
           if w.error_needs_traceback_arg then
             [("@traceback", .tb (get_simplified_traceback (next_traceback tbChain)))]
           else lambda_dict,
           w.default_return_builder]]
      else []
    if w.propagate then
      -- raise t, v, next_traceback(tb): the guard's frame is elided
      (enterEvents ++ errorEvents, .raised excVal (next_traceback tbChain))
    else
      (enterEvents ++ errorEvents ++ exitEvents w.default_ret,
       .returned w.default_ret)
  | .raiseNoMatch excVal tbChain =>
    -- the except clause does not match: the exception propagates unlogged
    (enterEvents, .raised excVal tbChain)

/-! ## per-event laziness instrumentation

`dog._log` wraps the fold of the phase's builders in `run_once` and hands
the resulting `basic_builder` to every consumer of the event: each
instantiated provider's `_args` property and the `Message`'s final
`builder`.  The instrumented model counts how often the underlying builder
chain actually runs while those consumers access it, and logs each computed
arg-name method invocation. -/

/-- Perform `n` successive accesses to a `run_once`-wrapped thunk. -/
def run_once_iterate {α : Type} (f : Unit → α) : Nat → RunOnceState α → RunOnceState α
  | 0, s => s
  | n + 1, s => run_once_iterate f n (run_once_call f s).2

/-- `dog._log`, instrumented.  Consumers of `basic_builder` within one
event: every non-underscore attribute of the extras instance (evaluated at
record creation, each reading `self._args`), every computed arg-name method
(invoked once per name of the frozenset by the builder's dict
comprehension), and the final `arguments.update(basic_builder())` of the
message builder when the sink stringifies the message.  Returns the event,
the number of times the underlying builder chain was evaluated, and the
computed arg-name invocations in invocation order. -/
def dog_log_instrumented (excInfo : Bool) (level : Option Int) (message : Template)
    (extras computer : Option JoinedDyn) (arg_names_to_compute : Finset String)
    (builders : List (List (String × Value))) : LogEvent × Nat × List String :=
  let chain : Unit → List (String × Value) := fun _ => builders.flatten
  let extrasAccesses : Nat := match extras with
    | some j => j.attrNames.length
    | none => 0
  let computedInvocations : List String := arg_names_to_compute.sort (· ≤ ·)
  let accesses := extrasAccesses + computedInvocations.length + 1
  let finalState := run_once_iterate chain accesses RunOnceState.fresh
  (dog_log excInfo level message extras computer arg_names_to_compute builders,
   finalState.2, computedInvocations)

/-! ## helpers for stating the claims -/

/-- The replacement-field arg-names of an optional template. -/
def tnames : Option Template → List String
  | some f => get_format_arg_names f
  | none => []

/-- The computed (`'>'`-marked) part of an arg-name list. -/
def computed_of (ns : List String) : List String :=
  (separate_computed_arg_names ns).1

/-- An arg-name list with its computed part removed. -/
def uncomputed_of (ns : List String) : List String :=
  (separate_computed_arg_names ns).2

/-- The special (`'@'`-marked) part of an arg-name list, after removing the
computed part — the classification order of
`dog._separate_phase_arg_names_to_categories`. -/
def special_of (ns : List String) : List String :=
  (separate_special_arg_names (uncomputed_of ns)).1

/-- The regular (unmarked) part of an arg-name list. -/
def regular_of (ns : List String) : List String :=
  (separate_special_arg_names (uncomputed_of ns)).2

/-- A per-phase specification built from an optional template, attached
Extra provider classes and attached Computed provider classes: `None` when
the phase is disabled, else the sequence form. -/
def phase_spec (t : Option Template) (provs comps : List DynClass) : Spec :=
  match t with
  | none => .noSpec
  | some f => .seqSpec (.strPart f :: (provs.map .extraPart ++ comps.map .computerPart))

/-- The arg-name list `dog._get_phases_arg_names` computes for a phase built
by `phase_spec`: the template's field names chained with the `__args__`
requested by the joined providers (in method-resolution order). -/
def phase_names (t : Option Template) (provs comps : List DynClass) : List String :=
  match t with
  | none => []
  | some f =>
    (get_format_arg_names f
      ++ iter_dynamic_attribute_requested_arg_names (join_dynamic_attributes provs))
      ++ iter_dynamic_attribute_requested_arg_names (join_dynamic_attributes comps)

/-- The joined extras class a `phase_spec` phase ends with (no
decorator-level extras): absent for a disabled phase or an empty provider
list. -/
def phase_extras_cfg (t : Option Template) (provs : List DynClass) : Option JoinedDyn :=
  match t with
  | none => none
  | some _ => if provs.isEmpty then none else some (join_dynamic_attributes provs)

/-- The joined computer class a `phase_spec` phase ends with. -/
def phase_computer_cfg (t : Option Template) (comps : List DynClass) : Option JoinedDyn :=
  match t with
  | none => none
  | some _ => if comps.isEmpty then none else some (join_dynamic_attributes comps)

/-- The provider classes a `phase_spec` specification resolves to: none for
a disabled phase. -/
def phase_provs (t : Option Template) (P : List DynClass) : List DynClass :=
  match t with
  | none => []
  | some _ => P

/-- Projection of a decoration outcome onto the exception it raised, if
any (the wrapper itself carries closures, so outcomes are compared through
this projection). -/
def decoration_error {α : Type} : Except PyError α → Option PyError
  | .error e => some e
  | .ok _ => none

/-- Whether a decoration/construction outcome succeeded. -/
def decoration_ok {α : Type} : Except PyError α → Bool
  | .error _ => false
  | .ok _ => true

/-! ## supporting lemmas -/

instance {ε α : Type} [DecidableEq ε] [DecidableEq α] : DecidableEq (Except ε α) :=
  fun x y =>
  match x, y with
  | .ok a, .ok b =>
    if h : a = b then isTrue (by rw [h]) else isFalse (by simp [h])
  | .error a, .error b =>
    if h : a = b then isTrue (by rw [h]) else isFalse (by simp [h])
  | .ok _, .error _ => isFalse (by simp)
  | .error _, .ok _ => isFalse (by simp)

/-- The name `get_caller_pathname_and_line` is bound nowhere in the
`dogging.dog` module (nor exported into it by any of the star imports). -/
lemma resolveGlobal_caller_pathname :
    resolveGlobal "get_caller_pathname_and_line" =
      .error (.nameError "get_caller_pathname_and_line") := by decide

/-- A `dog` configuration with all phases disabled (used to instantiate
universally-quantified statements at a concrete configuration). -/
def trivialDogConfig : DogConfig :=
  { enter_level := none, exit_level := none, error_level := none
    enter_format := none, exit_format := none, error_format := none
    enter_extras := none, exit_extras := none, error_extras := none
    enter_computer := none, exit_computer := none, error_computer := none
    enter_computed_arg_names := ∅, exit_computed_arg_names := ∅
    error_computed_arg_names := ∅
    enter_special_arg_names := ∅, exit_special_arg_names := ∅
    error_special_arg_names := ∅
    enter_regular_arg_names := ∅, exit_regular_arg_names := ∅
    error_regular_arg_names := ∅
    propagate := true, exc_info := false
    default_ret := .noneVal, default_ret_arg := [] }

/-- The `any` of `some_format_arg_names_are_positional` as an existential. -/
lemma some_positional_iff (ns : List String) :
    some_format_arg_names_are_positional ns = true ↔
      ∃ n ∈ ns, n = "" ∨ is_int_like n = true := by
  simp [some_format_arg_names_are_positional, List.any_eq_true]

/-! ## C1 -/

/-- **C1.** Decoration never completes: for every dog configuration and
every target function signature whose regular-name check passes,
`dog.__call__` evaluates the global name `get_caller_pathname_and_line`
unconditionally at decoration time, the name is bound in no module of the
source, and so decoration raises `NameError` before a wrapper is returned. -/
theorem C1_decoration_never_completes (d : DogConfig) (sig : FuncSig)
    (pathname : String) (line : Int)
    (hcheck : dog_check_function_args d sig = .ok ()) :
    dog_call d sig pathname line =
      .error (.nameError "get_caller_pathname_and_line") := by
  simp [dog_call, hcheck, resolveGlobal_caller_pathname, bind, Except.bind]

/-- Witness for C1: a concrete all-defaults dog over a one-parameter
function passes the regular-name check and still fails decoration with the
`NameError`. -/
theorem C1_witness :
    dog_check_function_args trivialDogConfig ⟨["bar"], none, none⟩ = .ok () ∧
    dog_call trivialDogConfig ⟨["bar"], none, none⟩ "caller.py" 17 =
      .error (.nameError "get_caller_pathname_and_line") :=
  ⟨by decide, C1_decoration_never_completes trivialDogConfig ⟨["bar"], none, none⟩
    "caller.py" 17 (by decide)⟩

/-! ## C7 -/

/-- A template with a positional field name makes `_get_phases_arg_names`
raise the positional-field `ValueError` for its phase. -/
lemma phase_arg_names_positional (t : Template) (E C : Option JoinedDyn)
    (hp : some_format_arg_names_are_positional (get_format_arg_names t) = true) :
    phase_arg_names (some t) E C =
      .error (.valueError "Unnamed or positional arg-names in format specification" ∅) := by
  have hne : (get_format_arg_names t).isEmpty = false := by
    cases hn : get_format_arg_names t with
    | nil => rw [hn] at hp; simp [some_format_arg_names_are_positional] at hp
    | cons a l => simp
  simp [phase_arg_names, hne, check_format_arg_names_no_positional, hp, bind, Except.bind]

/-- **C7.** Template field-name extraction accepts every template whose
replacement fields all have non-positional names; a template containing a
field whose name is empty or integer-like makes decoration fail with the
positional-field error (whatever the rest of the configuration, as long as
the other phase specifications resolve); and a template with zero
replacement fields is legal, yielding the empty field-name sequence. -/
theorem C7_positional_field_validation (t : Template) :
    ((∀ n ∈ get_format_arg_names t, ¬(n = "" ∨ is_int_like n = true)) →
      check_format_arg_names_no_positional (get_format_arg_names t) = .ok ()) ∧
    ((∃ n ∈ get_format_arg_names t, n = "" ∨ is_int_like n = true) →
      ∀ (exitS errorS : Spec) (extras : List DynClass) (p ei : Bool) (dr : Value),
        (∃ rx, resolve_specification exitS = .ok rx) →
        (∃ rr, resolve_specification errorS = .ok rr) →
        dog_init (.strSpec t) exitS errorS extras p ei dr =
          .error (.valueError "Unnamed or positional arg-names in format specification" ∅)) ∧
    ((∀ f ∈ t, f.fieldName = none) →
      get_format_arg_names t = [] ∧
      check_format_arg_names_no_positional (get_format_arg_names t) = .ok ()) := by
  refine ⟨?_, ?_, ?_⟩
  · intro h
    have hfalse : some_format_arg_names_are_positional (get_format_arg_names t) = false := by
      cases hb : some_format_arg_names_are_positional (get_format_arg_names t)
      · rfl
      · obtain ⟨n, hn, hp⟩ := (some_positional_iff _).1 hb
        exact absurd hp (h n hn)
    simp [check_format_arg_names_no_positional, hfalse]
  · rintro hex exitS errorS extras p ei dr ⟨rx, hrx⟩ ⟨rr, hrr⟩
    have hp : some_format_arg_names_are_positional (get_format_arg_names t) = true :=
      (some_positional_iff _).2 hex
    have hre : resolve_specification (.strSpec t) =
        .ok ⟨some INFO, some t, [], []⟩ := rfl
    simp [dog_init, hre, hrx, hrr,
      phase_arg_names_positional _ _ _ hp, bind, Except.bind]
  · intro h
    have hnil : get_format_arg_names t = [] := by
      simp only [get_format_arg_names]
      exact List.filterMap_eq_nil_iff.2 h
    refine ⟨hnil, ?_⟩
    simp [hnil, check_format_arg_names_no_positional,
      some_format_arg_names_are_positional]

/-- Concrete template with one well-named field. -/
def c7GoodTemplate : Template := [⟨"The ", some "bar"⟩, ⟨" is here", none⟩]

/-- Concrete template with an integer field name (positional). -/
def c7BadTemplate : Template := [⟨"", some "0"⟩]

/-- Concrete template with no replacement fields at all. -/
def c7PlainTemplate : Template := [⟨"plain text", none⟩]

/-- Witness for C7 at concrete templates: acceptance, decoration-time
rejection, and the zero-field case. -/
theorem C7_witness :
    check_format_arg_names_no_positional (get_format_arg_names c7GoodTemplate) = .ok () ∧
    dog_init (.strSpec c7BadTemplate) .noSpec .noSpec [] true false .noneVal =
      .error (.valueError "Unnamed or positional arg-names in format specification" ∅) ∧
    (get_format_arg_names c7PlainTemplate = [] ∧
      check_format_arg_names_no_positional (get_format_arg_names c7PlainTemplate) = .ok ()) :=
  ⟨(C7_positional_field_validation c7GoodTemplate).1 (by decide),
   (C7_positional_field_validation c7BadTemplate).2.1 (by decide)
     .noSpec .noSpec [] true false .noneVal ⟨_, rfl⟩ ⟨_, rfl⟩,
   (C7_positional_field_validation c7PlainTemplate).2.2 (by decide)⟩

/-! ## C8 -/

/-- Declarative reading of the sequence loop: the level kept is the last
integer element (else the `INFO` default). -/
def seq_level (parts : List SpecPart) : Int :=
  parts.foldl (fun a p => match p with | .intPart n => n | _ => a) INFO

/-- Declarative reading: the template kept is the last string element. -/
def seq_fmt (parts : List SpecPart) : Option Template :=
  parts.foldl (fun a p => match p with | .strPart t => some t | _ => a) none

/-- Declarative reading: the Extra provider classes, in element order. -/
def seq_extras (parts : List SpecPart) : List DynClass :=
  parts.filterMap (fun p => match p with | .extraPart c => some c | _ => none)

/-- Declarative reading: the Computed provider classes, in element order. -/
def seq_computers (parts : List SpecPart) : List DynClass :=
  parts.filterMap (fun p => match p with | .computerPart c => some c | _ => none)

/-- The type name of the first element of unrecognized type, if any. -/
def first_bad_part (parts : List SpecPart) : Option String :=
  parts.findSome? (fun p => match p with
    | .otherClass tn => some tn
    | .otherValue tn => some tn
    | _ => none)

/-- The sequence-resolution loop equals its declarative reading: it raises
`TypeError` at the first element of unrecognized type, and otherwise
accumulates last-int level, last-string template, and the providers in
order. -/
lemma resolve_seq_loop_eq (parts : List SpecPart) (l : Int) (f : Option Template)
    (es cs : List DynClass) :
    resolve_seq_loop parts l f es cs =
      match first_bad_part parts with
      | some tn => .error (.typeError "unsupported type for sequence specification" {tn})
      | none =>
        .ok (parts.foldl (fun a p => match p with | .intPart n => n | _ => a) l,
             parts.foldl (fun a p => match p with | .strPart t => some t | _ => a) f,
             es ++ seq_extras parts, cs ++ seq_computers parts) := by
  induction parts generalizing l f es cs with
  | nil => simp [resolve_seq_loop, first_bad_part, seq_extras, seq_computers]
  | cons p rest ih =>
    cases p <;>
      simp [resolve_seq_loop, first_bad_part, seq_extras, seq_computers, ih,
        List.findSome?]

/-- **C8.** Phase-specification resolution: `None` disables the phase
(no level, no template, no providers); a plain string becomes the template
with default level `INFO` and no providers; a sequence is resolved
element-by-element by type — integers set the level, strings set the
template, `ExtraAttributes` subclasses append to the extras,
`ComputedArgNames` subclasses append to the computers — with `TypeError` on
an element of any other type, `ValueError` when no element supplies the
template, and (as the degenerate case of the latter) `ValueError` on the
empty sequence. -/
theorem C8_specification_resolution :
    (resolve_specification .noSpec = .ok ⟨none, none, [], []⟩) ∧
    (∀ t, resolve_specification (.strSpec t) = .ok ⟨some INFO, some t, [], []⟩) ∧
    (∀ parts tn, first_bad_part parts = some tn →
      resolve_specification (.seqSpec parts) =
        .error (.typeError "unsupported type for sequence specification" {tn})) ∧
    (∀ parts, first_bad_part parts = none → seq_fmt parts = none →
      resolve_specification (.seqSpec parts) =
        .error (.valueError "must specify a format string in a sequence specification" ∅)) ∧
    (resolve_specification (.seqSpec []) =
      .error (.valueError "must specify a format string in a sequence specification" ∅)) ∧
    (∀ parts t, first_bad_part parts = none → seq_fmt parts = some t →
      resolve_specification (.seqSpec parts) =
        .ok ⟨some (seq_level parts), some t, seq_extras parts, seq_computers parts⟩) := by
  refine ⟨rfl, fun t => rfl, ?_, ?_, rfl, ?_⟩
  · intro parts tn hbad
    simp [resolve_specification, resolve_specification_sequence,
      resolve_seq_loop_eq, hbad, bind, Except.bind]
  · intro parts hgood hfmt
    simp only [seq_fmt] at hfmt
    simp [resolve_specification, resolve_specification_sequence,
      resolve_seq_loop_eq, hgood, hfmt, bind, Except.bind]
  · intro parts t hgood hfmt
    simp only [seq_fmt] at hfmt
    simp [resolve_specification, resolve_specification_sequence,
      resolve_seq_loop_eq, hgood, hfmt, bind, Except.bind, seq_level]

/-- A concrete Extra provider class with no methods and no dependencies. -/
def plainExtraClass : DynClass := ⟨[], []⟩

/-- Witness for C8: a mixed concrete sequence (level, template, provider),
a bad-element sequence, a template-less sequence, and the empty sequence. -/
theorem C8_witness :
    (resolve_specification (.seqSpec [.otherValue "float"]) =
      .error (.typeError "unsupported type for sequence specification" {"float"})) ∧
    (resolve_specification (.seqSpec [.intPart 40]) =
      .error (.valueError "must specify a format string in a sequence specification" ∅)) ∧
    (resolve_specification
        (.seqSpec [.intPart 40, .strPart c7GoodTemplate, .extraPart plainExtraClass]) =
      .ok ⟨some (seq_level [.intPart 40, .strPart c7GoodTemplate, .extraPart plainExtraClass]),
           some c7GoodTemplate,
           seq_extras [.intPart 40, .strPart c7GoodTemplate, .extraPart plainExtraClass],
           seq_computers [.intPart 40, .strPart c7GoodTemplate, .extraPart plainExtraClass]⟩) :=
  ⟨C8_specification_resolution.2.2.1 [.otherValue "float"] "float" rfl,
   C8_specification_resolution.2.2.2.1 [.intPart 40] rfl rfl,
   C8_specification_resolution.2.2.2.2.2
     [.intPart 40, .strPart c7GoodTemplate, .extraPart plainExtraClass]
     c7GoodTemplate rfl rfl⟩

/-! ## C4 -/

/-- `_check_function_args` as a single conditional on the union of the three
phases' unrecognized names. -/
lemma dog_check_function_args_eq (d : DogConfig) (sig : FuncSig) :
    dog_check_function_args d sig =
      if ((d.enter_regular_arg_names ∪ d.exit_regular_arg_names ∪
            d.error_regular_arg_names) \ func_arg_set sig).Nonempty then
        .error (.typeError
          "Function does not have these arguments, which were referenced in the dog"
          ((d.enter_regular_arg_names ∪ d.exit_regular_arg_names ∪
             d.error_regular_arg_names) \ func_arg_set sig))
      else .ok () := by
  have hU : d.enter_regular_arg_names \ func_arg_set sig ∪
      d.exit_regular_arg_names \ func_arg_set sig ∪
      d.error_regular_arg_names \ func_arg_set sig =
      (d.enter_regular_arg_names ∪ d.exit_regular_arg_names ∪
        d.error_regular_arg_names) \ func_arg_set sig := by
    simp [Finset.union_sdiff_distrib]
  simp only [dog_check_function_args, hU]

/-- **C4 (amended).** At decoration time, every regular field name
referenced by any phase (template or provider dependencies, as recorded in
the per-phase regular arg-name sets) must be among the wrapped function's
declared parameter names — where the *names of* the variadic catch-alls
count as declared names, but arbitrary names are *not* absorbed by the
catch-alls — and otherwise decoration fails with a `TypeError` listing all
unrecognized names across all phases at once. -/
theorem C4_regular_name_validation (d : DogConfig) (sig : FuncSig) :
    (dog_check_function_args d sig = .ok () ↔
      d.enter_regular_arg_names ∪ d.exit_regular_arg_names ∪
        d.error_regular_arg_names ⊆ func_arg_set sig) ∧
    (¬ d.enter_regular_arg_names ∪ d.exit_regular_arg_names ∪
        d.error_regular_arg_names ⊆ func_arg_set sig →
      ∀ pathname line,
        dog_call_modelled d sig pathname line =
          .error (.typeError
            "Function does not have these arguments, which were referenced in the dog"
            ((d.enter_regular_arg_names ∪ d.exit_regular_arg_names ∪
               d.error_regular_arg_names) \ func_arg_set sig))) := by
  constructor
  · rw [dog_check_function_args_eq]
    split_ifs with h
    · rw [Finset.sdiff_nonempty] at h
      simp only [reduceCtorEq, false_iff]
      exact h
    · rw [Finset.sdiff_nonempty, not_not] at h
      simp only [true_iff]
      exact h
  · intro hns pathname line
    have hne : ((d.enter_regular_arg_names ∪ d.exit_regular_arg_names ∪
        d.error_regular_arg_names) \ func_arg_set sig).Nonempty :=
      Finset.sdiff_nonempty.2 hns
    rw [Finset.union_assoc] at hne
    simp [dog_call_modelled, dog_check_function_args_eq, hne, bind, Except.bind,
      Finset.union_assoc]

/-- Witness for C4 at a concrete configuration: a dog referencing `x` and
`y` over a function `foo(y)` fails with both-phase-collected names. -/
theorem C4_witness :
    ¬ ({"x"} ∪ {"y", "zz"} ∪ (∅ : Finset String) ⊆
        func_arg_set ⟨["y"], none, none⟩) ∧
    dog_call_modelled
      { trivialDogConfig with
          enter_regular_arg_names := {"x"}, exit_regular_arg_names := {"y", "zz"} }
      ⟨["y"], none, none⟩ "f.py" 3 =
      .error (.typeError
        "Function does not have these arguments, which were referenced in the dog"
        (({"x"} ∪ {"y", "zz"} ∪ (∅ : Finset String)) \
          func_arg_set ⟨["y"], none, none⟩)) :=
  ⟨by decide,
   (C4_regular_name_validation
     { trivialDogConfig with
         enter_regular_arg_names := {"x"}, exit_regular_arg_names := {"y", "zz"} }
     ⟨["y"], none, none⟩).2 (by decide) "f.py" 3⟩

/-- Counterexample to C4 as frozen: the claim has variadic catch-alls
absorb *any* referenced name, but a dog referencing the regular name `x`
over `def foo(*args, **kwargs)` — both catch-alls present — is rejected at
decoration time with the `TypeError` listing `x`. -/
theorem C4_counterexample :
    decoration_ok
      (dog_init (.strSpec [⟨"The ", some "x"⟩]) .noSpec .noSpec [] true false .noneVal) =
      true ∧
    decoration_error
      ((dog_init (.strSpec [⟨"The ", some "x"⟩]) .noSpec .noSpec [] true false
          .noneVal).bind
        (fun d => dog_call_modelled d ⟨[], some "args", some "kwargs"⟩ "f.py" 1)) =
      some (.typeError
        "Function does not have these arguments, which were referenced in the dog"
        {"x"}) := by
  constructor
  · decide
  · decide

/-! ## reduction lemmas for `dog_init` on phase-built specifications -/

/-- The sequence loop consumes trailing provider parts without touching the
level or the template. -/
lemma resolve_seq_loop_providers (provs comps : List DynClass) (l : Int)
    (f : Option Template) (es cs : List DynClass) :
    resolve_seq_loop (provs.map .extraPart ++ comps.map .computerPart) l f es cs =
      .ok (l, f, es ++ provs, cs ++ comps) := by
  induction provs generalizing es with
  | nil =>
    simp only [List.map_nil, List.nil_append]
    induction comps generalizing cs with
    | nil => simp [resolve_seq_loop]
    | cons c cst ihc => simp [resolve_seq_loop, ihc]
  | cons p pst ihp => simp [resolve_seq_loop, ihp]

/-- Resolving a `phase_spec`: `None` for a disabled phase, otherwise the
template at default level with the attached providers, in order. -/
lemma resolve_phase_spec (t : Option Template) (provs comps : List DynClass) :
    resolve_specification (phase_spec t provs comps) =
      .ok ⟨t.map (fun _ => INFO), t, phase_provs t provs, phase_provs t comps⟩ := by
  cases t with
  | none => rfl
  | some f =>
    simp [phase_spec, phase_provs, resolve_specification,
      resolve_specification_sequence, resolve_seq_loop,
      resolve_seq_loop_providers, bind, Except.bind]

/-- Merging the per-phase extras of a `phase_spec` into empty
decorator-level extras. -/
lemma add_phase_extras_none (t : Option Template) (P : List DynClass) :
    add_phase_extras none (phase_provs t P) = phase_extras_cfg t P := by
  cases t with
  | none => simp [phase_provs, add_phase_extras, phase_extras_cfg]
  | some f =>
    cases P <;>
      simp [phase_provs, add_phase_extras, phase_extras_cfg, join_dynamic_attributes]

/-- Joining the per-phase computers of a `phase_spec`. -/
lemma join_phase_computers (t : Option Template) (C : List DynClass) :
    (if (phase_provs t C).isEmpty then none
     else some (join_dynamic_attributes (phase_provs t C))) =
      phase_computer_cfg t C := by
  cases t <;> simp [phase_provs, phase_computer_cfg]

/-- `_get_phases_arg_names` on a `phase_spec` phase whose template has no
positional field names. -/
lemma phase_arg_names_ok (t : Option Template) (provs comps : List DynClass)
    (hp : some_format_arg_names_are_positional (tnames t) = false) :
    phase_arg_names t (phase_extras_cfg t provs) (phase_computer_cfg t comps) =
      .ok (phase_names t provs comps) := by
  cases t with
  | none => rfl
  | some f =>
    have hcheck : check_format_arg_names_no_positional (get_format_arg_names f) =
        .ok () := by
      simp only [tnames] at hp
      simp [check_format_arg_names_no_positional, hp]
    cases hn : (get_format_arg_names f).isEmpty <;> cases provs <;> cases comps <;>
      simp [phase_arg_names, phase_extras_cfg, phase_computer_cfg, phase_names,
        hn, hcheck, bind, Except.bind, pure, Except.pure,
        iter_dynamic_attribute_requested_arg_names, join_dynamic_attributes]

/-- A special arg-name set within its phase's supported set passes
`check_special_arg_names_support`. -/
lemma check_special_ok (phase : String) (arg_names supported : Finset String)
    (h : arg_names ⊆ supported) :
    check_special_arg_names_support phase arg_names supported = .ok () := by
  simp [check_special_arg_names_support, h]

/-- A special arg-name set not within its phase's supported set makes
`check_special_arg_names_support` raise the `ValueError` listing exactly the
offending names. -/
lemma check_special_fail (phase : String) (arg_names supported : Finset String)
    (h : ¬ arg_names ⊆ supported) :
    check_special_arg_names_support phase arg_names supported =
      .error (.valueError
        ("unsupported special arg-names for " ++ phase ++ " logging phase")
        (arg_names \ supported)) := by
  have hne : arg_names.Nonempty := by
    rcases arg_names.eq_empty_or_nonempty with he | hne
    · exact absurd (he ▸ Finset.empty_subset supported) h
    · exact hne
  simp [check_special_arg_names_support, h, hne]

/-- `_validate_computed_arg_names` passes on a phase whose computed
arg-names are well-formed and all supplied. -/
lemma validate_computed_ok (arg_names : Finset String) (computer : Option JoinedDyn)
    (h1 : ∀ n ∈ arg_names, ¬ n.toList[1]? = some '_')
    (h2 : ∀ n ∈ arg_names, n.drop 1 ∈
      (match computer with
       | some j => j.attrNames.toFinset
       | none => (∅ : Finset String))) :
    validate_computed_phase arg_names computer = .ok () := by
  have c1 : ¬ ∃ n ∈ arg_names, n.toList[1]? = some '_' := by
    push_neg
    exact h1
  have c2 : ¬ ∃ n ∈ arg_names, n.drop 1 ∉
      (match computer with
       | some j => j.attrNames.toFinset
       | none => (∅ : Finset String)) := by
    push_neg
    exact h2
  simp only [validate_computed_phase]
  rw [if_neg c1, if_neg c2]

/-- `_validate_computed_arg_names` passes trivially on a phase without
computed arg-names. -/
lemma validate_computed_empty (computer : Option JoinedDyn) :
    validate_computed_phase ∅ computer = .ok () := by
  simp [validate_computed_phase]

/-- The configuration `dog_init` produces for three `phase_spec` phases (no
decorator-level extras): per phase, the default level when enabled, the
template, the joined providers, and the classified arg-name sets. -/
def expected_config (et xt rt : Option Template)
    (eP xP rP eC xC rC : List DynClass)
    (propag excI : Bool) (dr : Value) : DogConfig :=
  { enter_level := et.map (fun _ => INFO)
    exit_level := xt.map (fun _ => INFO)
    error_level := rt.map (fun _ => INFO)
    enter_format := et, exit_format := xt, error_format := rt
    enter_extras := phase_extras_cfg et eP
    exit_extras := phase_extras_cfg xt xP
    error_extras := phase_extras_cfg rt rP
    enter_computer := phase_computer_cfg et eC
    exit_computer := phase_computer_cfg xt xC
    error_computer := phase_computer_cfg rt rC
    enter_computed_arg_names := (separate_phase_arg_names et (phase_names et eP eC)).1
    exit_computed_arg_names := (separate_phase_arg_names xt (phase_names xt xP xC)).1
    error_computed_arg_names := (separate_phase_arg_names rt (phase_names rt rP rC)).1
    enter_special_arg_names := (separate_phase_arg_names et (phase_names et eP eC)).2.1
    exit_special_arg_names := (separate_phase_arg_names xt (phase_names xt xP xC)).2.1
    error_special_arg_names := (separate_phase_arg_names rt (phase_names rt rP rC)).2.1
    enter_regular_arg_names := (separate_phase_arg_names et (phase_names et eP eC)).2.2
    exit_regular_arg_names := (separate_phase_arg_names xt (phase_names xt xP xC)).2.2
    error_regular_arg_names := (separate_phase_arg_names rt (phase_names rt rP rC)).2.2
    propagate := propag, exc_info := excI
    default_ret := dr
    default_ret_arg := if propag then [] else [("@ret", dr)] }

/-- Master construction lemma: `dog_init` on three `phase_spec` phases
succeeds, producing `expected_config`, whenever every enabled template is
positional-free, every phase's special arg-names lie in its supported set,
`@ret` is not requested by the error phase under propagation, and every
computed arg-name is well-formed and supplied by its phase's computers. -/
lemma dog_init_phase_spec (et xt rt : Option Template)
    (eP xP rP eC xC rC : List DynClass) (propag excI : Bool) (dr : Value)
    (hpe : some_format_arg_names_are_positional (tnames et) = false)
    (hpx : some_format_arg_names_are_positional (tnames xt) = false)
    (hpr : some_format_arg_names_are_positional (tnames rt) = false)
    (hse : (separate_phase_arg_names et (phase_names et eP eC)).2.1 ⊆ _ENTER_ARGS)
    (hsx : (separate_phase_arg_names xt (phase_names xt xP xC)).2.1 ⊆ _EXIT_ARGS)
    (hsr : (separate_phase_arg_names rt (phase_names rt rP rC)).2.1 ⊆ _ERROR_ARGS)
    (hret : ¬(propag = true ∧
      "@ret" ∈ (separate_phase_arg_names rt (phase_names rt rP rC)).2.1))
    (hce1 : ∀ n ∈ (separate_phase_arg_names et (phase_names et eP eC)).1,
      ¬ n.toList[1]? = some '_')
    (hce2 : ∀ n ∈ (separate_phase_arg_names et (phase_names et eP eC)).1, n.drop 1 ∈
      (match phase_computer_cfg et eC with
       | some j => j.attrNames.toFinset
       | none => (∅ : Finset String)))
    (hcx1 : ∀ n ∈ (separate_phase_arg_names xt (phase_names xt xP xC)).1,
      ¬ n.toList[1]? = some '_')
    (hcx2 : ∀ n ∈ (separate_phase_arg_names xt (phase_names xt xP xC)).1, n.drop 1 ∈
      (match phase_computer_cfg xt xC with
       | some j => j.attrNames.toFinset
       | none => (∅ : Finset String)))
    (hcr1 : ∀ n ∈ (separate_phase_arg_names rt (phase_names rt rP rC)).1,
      ¬ n.toList[1]? = some '_')
    (hcr2 : ∀ n ∈ (separate_phase_arg_names rt (phase_names rt rP rC)).1, n.drop 1 ∈
      (match phase_computer_cfg rt rC with
       | some j => j.attrNames.toFinset
       | none => (∅ : Finset String))) :
    dog_init (phase_spec et eP eC) (phase_spec xt xP xC) (phase_spec rt rP rC)
      [] propag excI dr =
      .ok (expected_config et xt rt eP xP rP eC xC rC propag excI dr) := by
  simp [dog_init, resolve_phase_spec, add_phase_extras_none, join_phase_computers,
    phase_arg_names_ok _ _ _ hpe, phase_arg_names_ok _ _ _ hpx,
    phase_arg_names_ok _ _ _ hpr,
    check_special_ok _ _ _ hse, check_special_ok _ _ _ hsx,
    check_special_ok _ _ _ hsr, hret,
    validate_computed_ok _ _ hce1 hce2, validate_computed_ok _ _ hcx1 hcx2,
    validate_computed_ok _ _ hcr1 hcr2,
    expected_config, bind, Except.bind, pure, Except.pure]

/-! ## classification and rendering lemmas -/

/-- A name list none of whose members is positional fails the positional
predicate. -/
lemma not_positional (ns : List String)
    (h : ∀ n ∈ ns, ¬(n = "" ∨ is_int_like n = true)) :
    some_format_arg_names_are_positional ns = false := by
  cases hb : some_format_arg_names_are_positional ns
  · rfl
  · obtain ⟨n, hn, hp⟩ := (some_positional_iff _).1 hb
    exact absurd hp (h n hn)

/-- An enabled phase's computed arg-name set, as a filter. -/
lemma computed_set_eq (t : Template) (ns : List String) :
    (separate_phase_arg_names (some t) ns).1 =
      (ns.filter (fun n => starts_with_char n '>')).toFinset := by
  simp [separate_phase_arg_names, separate_computed_arg_names, filter2]

/-- An enabled phase's special arg-name set, as a double filter. -/
lemma special_set_eq (t : Template) (ns : List String) :
    (separate_phase_arg_names (some t) ns).2.1 =
      ((ns.filter (fun n => !starts_with_char n '>')).filter
        (fun n => starts_with_char n '@')).toFinset := by
  simp [separate_phase_arg_names, separate_computed_arg_names,
    separate_special_arg_names, filter2]

/-- An enabled phase's regular arg-name set, as a double filter. -/
lemma regular_set_eq (t : Template) (ns : List String) :
    (separate_phase_arg_names (some t) ns).2.2 =
      ((ns.filter (fun n => !starts_with_char n '>')).filter
        (fun n => !starts_with_char n '@')).toFinset := by
  simp [separate_phase_arg_names, separate_computed_arg_names,
    separate_special_arg_names, filter2]

/-- Without providers, a phase's arg-names are exactly its template's. -/
lemma phase_names_no_providers (t : Option Template) :
    phase_names t [] [] = tnames t := by
  cases t <;>
    simp [phase_names, tnames, iter_dynamic_attribute_requested_arg_names,
      join_dynamic_attributes]

/-- Rendering depends only on the mapping's values at the template's
referenced arg-names. -/
lemma render_congr (t : Template) (m m' : String → Option Value)
    (h : ∀ n ∈ get_format_arg_names t, m n = m' n) :
    render t m = render t m' := by
  induction t with
  | nil => rfl
  | cons f rest ih =>
    have hrest : ∀ n ∈ get_format_arg_names rest, m n = m' n := by
      intro n hn
      exact h n (by simp [get_format_arg_names] at hn ⊢; exact .inr hn)
    cases hf : f.fieldName with
    | none => simp [render, hf, ih hrest]
    | some n =>
      have hn : n ∈ get_format_arg_names (f :: rest) := by
        simp [get_format_arg_names, hf]
      simp only [render, hf, h n hn, ih hrest]

/-- Looking a key up in an updated (appended) dictionary: the later part
wins when it binds the key. -/
lemma dlookup_append (l1 l2 : List (String × Value)) (k : String) :
    dlookup (l1 ++ l2) k =
      match dlookup l2 k with
      | some v => some v
      | none => dlookup l1 k := by
  induction l1 with
  | nil => cases h : dlookup l2 k <;> simp [dlookup, h]
  | cons p rest ih =>
    cases h : dlookup l2 k <;> simp [dlookup, ih, h]

/-- `dog_init` only depends on the phase specifications through their
resolutions. -/
lemma dog_init_resolve_congr (e1 e2 x1 x2 r1 r2 : Spec) (extras : List DynClass)
    (p ei : Bool) (dr : Value)
    (he : resolve_specification e1 = resolve_specification e2)
    (hx : resolve_specification x1 = resolve_specification x2)
    (hr : resolve_specification r1 = resolve_specification r2) :
    dog_init e1 x1 r1 extras p ei dr = dog_init e2 x2 r2 extras p ei dr := by
  unfold dog_init
  rw [he, hx, hr]

/-! ## C2 -/

/-- **C2.** A function `foo(bar, baz)` decorated with an enter template and
an exit template whose fields reference only the regular names `bar`/`baz`
(plus `@ret` in the exit template), called as `foo('cake', 'lie')`, emits
exactly two events in order — enter first, exit second — the enter message
rendering from the mapping `bar='cake', baz='lie'`, the exit message from
the same mapping plus `@ret` bound to the wrapped call's return value, and
that return value is returned unchanged. -/
theorem C2_enter_exit_logging (tEnter tExit : Template)
    (hE : ∀ n ∈ get_format_arg_names tEnter, n = "bar" ∨ n = "baz")
    (hX : ∀ n ∈ get_format_arg_names tExit, n = "bar" ∨ n = "baz" ∨ n = "@ret")
    (propag excI : Bool) (dr : Value) (lg fo : Value) (t1 t2 : Int) (v : Value)
    (pathname : String) (line : Int) :
    ∃ d w e1 e2,
      dog_init (.strSpec tEnter) (.strSpec tExit) .noSpec [] propag excI dr = .ok d ∧
      dog_call_modelled d ⟨["bar", "baz"], none, none⟩ pathname line = .ok w ∧
      run_wrapper w ⟨lg, [("bar", .str "cake"), ("baz", .str "lie")], fo, t1, t2, .ret v⟩
        = ([e1, e2], .returned v) ∧
      e1.msgFormat = tEnter ∧ e1.level = some INFO ∧ e1.extra = none ∧
      render tEnter (dlookup e1.mapping) =
        render tEnter (dlookup [("bar", .str "cake"), ("baz", .str "lie")]) ∧
      e2.msgFormat = tExit ∧ e2.level = some INFO ∧ e2.extra = none ∧
      render tExit (dlookup e2.mapping) =
        render tExit (dlookup
          [("bar", .str "cake"), ("baz", .str "lie"), ("@ret", v)]) := by
  -- positional-freeness of both templates
  have hEpos : some_format_arg_names_are_positional (tnames (some tEnter)) = false := by
    apply not_positional
    intro n hn
    simp only [tnames] at hn
    rcases hE n hn with rfl | rfl <;> decide
  have hXpos : some_format_arg_names_are_positional (tnames (some tExit)) = false := by
    apply not_positional
    intro n hn
    simp only [tnames] at hn
    rcases hX n hn with rfl | rfl | rfl <;> decide
  -- classified arg-name sets of the enter phase
  have hSE : (separate_phase_arg_names (some tEnter)
      (phase_names (some tEnter) [] [])).2.1 = ∅ := by
    rw [special_set_eq, phase_names_no_providers]
    apply Finset.eq_empty_iff_forall_not_mem.2
    intro n hn
    simp only [tnames, List.mem_toFinset, List.mem_filter] at hn
    obtain ⟨⟨hmem, -⟩, hat⟩ := hn
    rcases hE n hmem with rfl | rfl <;> exact absurd hat (by decide)
  have hCE : (separate_phase_arg_names (some tEnter)
      (phase_names (some tEnter) [] [])).1 = ∅ := by
    rw [computed_set_eq, phase_names_no_providers]
    apply Finset.eq_empty_iff_forall_not_mem.2
    intro n hn
    simp only [tnames, List.mem_toFinset, List.mem_filter] at hn
    obtain ⟨hmem, hgt⟩ := hn
    rcases hE n hmem with rfl | rfl <;> exact absurd hgt (by decide)
  -- classified arg-name sets of the exit phase
  have hCX : (separate_phase_arg_names (some tExit)
      (phase_names (some tExit) [] [])).1 = ∅ := by
    rw [computed_set_eq, phase_names_no_providers]
    apply Finset.eq_empty_iff_forall_not_mem.2
    intro n hn
    simp only [tnames, List.mem_toFinset, List.mem_filter] at hn
    obtain ⟨hmem, hgt⟩ := hn
    rcases hX n hmem with rfl | rfl | rfl <;> exact absurd hgt (by decide)
  have hSXmem : ∀ n ∈ (separate_phase_arg_names (some tExit)
      (phase_names (some tExit) [] [])).2.1, n = "@ret" := by
    intro n hn
    rw [special_set_eq, phase_names_no_providers] at hn
    simp only [tnames, List.mem_toFinset, List.mem_filter] at hn
    obtain ⟨⟨hmem, -⟩, hat⟩ := hn
    rcases hX n hmem with rfl | rfl | rfl
    · exact absurd hat (by decide)
    · exact absurd hat (by decide)
    · rfl
  -- regular-name membership transfer, both phases
  have hREmem : ∀ n ∈ get_format_arg_names tEnter,
      n ∈ (separate_phase_arg_names (some tEnter)
        (phase_names (some tEnter) [] [])).2.2 := by
    intro n hn
    rw [regular_set_eq, phase_names_no_providers]
    simp only [tnames, List.mem_toFinset, List.mem_filter]
    rcases hE n hn with rfl | rfl <;> exact ⟨⟨hn, by decide⟩, by decide⟩
  have hRXmem : ∀ n ∈ get_format_arg_names tExit, n ≠ "@ret" →
      n ∈ (separate_phase_arg_names (some tExit)
        (phase_names (some tExit) [] [])).2.2 := by
    intro n hn hne
    rw [regular_set_eq, phase_names_no_providers]
    simp only [tnames, List.mem_toFinset, List.mem_filter]
    rcases hX n hn with rfl | rfl | rfl
    · exact ⟨⟨hn, by decide⟩, by decide⟩
    · exact ⟨⟨hn, by decide⟩, by decide⟩
    · exact absurd rfl hne
  have hRetXmem : "@ret" ∈ get_format_arg_names tExit →
      "@ret" ∈ (separate_phase_arg_names (some tExit)
        (phase_names (some tExit) [] [])).2.1 := by
    intro hn
    rw [special_set_eq, phase_names_no_providers]
    simp only [tnames, List.mem_toFinset, List.mem_filter]
    exact ⟨⟨hn, by decide⟩, by decide⟩
  have hREsub : ∀ n ∈ (separate_phase_arg_names (some tEnter)
      (phase_names (some tEnter) [] [])).2.2, n ∈ get_format_arg_names tEnter := by
    intro n hn
    rw [regular_set_eq, phase_names_no_providers] at hn
    simp only [tnames, List.mem_toFinset, List.mem_filter] at hn
    exact hn.1.1
  have hRXsub : ∀ n ∈ (separate_phase_arg_names (some tExit)
      (phase_names (some tExit) [] [])).2.2,
      n ∈ get_format_arg_names tExit ∧ starts_with_char n '@' = false := by
    intro n hn
    rw [regular_set_eq, phase_names_no_providers] at hn
    simp only [tnames, List.mem_toFinset, List.mem_filter] at hn
    exact ⟨hn.1.1, by simpa using hn.2⟩
  -- construction succeeds
  have hd : dog_init (.strSpec tEnter) (.strSpec tExit) .noSpec [] propag excI dr =
      .ok (expected_config (some tEnter) (some tExit) none [] [] [] [] [] []
        propag excI dr) := by
    rw [dog_init_resolve_congr (.strSpec tEnter) (phase_spec (some tEnter) [] [])
      (.strSpec tExit) (phase_spec (some tExit) [] [])
      .noSpec (phase_spec none [] []) [] propag excI dr rfl rfl rfl]
    apply dog_init_phase_spec <;> try rfl
    · exact hEpos
    · exact hXpos
    · rw [hSE]; exact Finset.empty_subset _
    · intro n hn
      rw [hSXmem n hn]
      decide
    · simp [separate_phase_arg_names]
    · simp [separate_phase_arg_names]
    · intro n hn; rw [hCE] at hn; exact absurd hn (Finset.not_mem_empty _)
    · intro n hn; rw [hCE] at hn; exact absurd hn (Finset.not_mem_empty _)
    · intro n hn; rw [hCX] at hn; exact absurd hn (Finset.not_mem_empty _)
    · intro n hn; rw [hCX] at hn; exact absurd hn (Finset.not_mem_empty _)
    · simp [separate_phase_arg_names]
    · simp [separate_phase_arg_names]
  set d := expected_config (some tEnter) (some tExit) none [] [] [] [] [] []
    propag excI dr with hdDef
  -- decoration (with the spec-modelled helper) succeeds
  have hcheck : dog_check_function_args d ⟨["bar", "baz"], none, none⟩ = .ok () := by
    rw [dog_check_function_args_eq, if_neg]
    rw [Finset.not_nonempty_iff_eq_empty, Finset.sdiff_eq_empty_iff_subset]
    intro n hn
    rcases Finset.mem_union.1 hn with hn' | hn'
    · rcases Finset.mem_union.1 hn' with hn'' | hn''
      · rcases hE n (hREsub n hn'') with rfl | rfl <;> decide
      · rcases hX n (hRXsub n hn'').1 with rfl | rfl | rfl
        · decide
        · decide
        · exact absurd (hRXsub _ hn'').2 (by decide)
    · exact absurd hn' (by simp [hdDef, expected_config, separate_phase_arg_names])
  have hw : dog_call_modelled d ⟨["bar", "baz"], none, none⟩ pathname line =
      .ok (mk_wrapper_static d pathname line) := by
    simp [dog_call_modelled, hcheck, get_caller_pathname_and_line, bind,
      Except.bind, pure, Except.pure]
  refine ⟨d, mk_wrapper_static d pathname line, _, _, hd, hw, rfl, rfl, rfl, rfl,
    ?_, rfl, rfl, rfl, ?_⟩
  · -- enter rendering: on every referenced name the built mapping agrees
    -- with {bar: cake, baz: lie}
    apply render_congr
    intro n hn
    have hnR : n ∈ (separate_phase_arg_names (some tEnter)
        (phase_names (some tEnter) [] [])).2.2 := hREmem n hn
    have hA : ("@pathname" ∈ (separate_phase_arg_names (some tEnter)
        (phase_names (some tEnter) [] [])).2.1) = False := by rw [hSE]; simp
    have hB : ("@line" ∈ (separate_phase_arg_names (some tEnter)
        (phase_names (some tEnter) [] [])).2.1) = False := by rw [hSE]; simp
    have hD : ("@logger" ∈ (separate_phase_arg_names (some tEnter)
        (phase_names (some tEnter) [] [])).2.1) = False := by rw [hSE]; simp
    have hF : ("@func" ∈ (separate_phase_arg_names (some tEnter)
        (phase_names (some tEnter) [] [])).2.1) = False := by rw [hSE]; simp
    have hNE : ((separate_phase_arg_names (some tEnter)
        (phase_names (some tEnter) [] [])).2.2).Nonempty = True := eq_true ⟨n, hnR⟩
    simp only [hdDef, expected_config, mk_wrapper_static, dog_log, lambda_dict]
    simp [hA, hB, hD, hF, hNE, phase_computer_cfg, phase_extras_cfg]
  · -- exit rendering: on every referenced name the built mapping agrees
    -- with {bar: cake, baz: lie, @ret: v}
    apply render_congr
    intro n hn
    have hXt : ("@time" ∈ (separate_phase_arg_names (some tExit)
        (phase_names (some tExit) [] [])).2.1) = False :=
      eq_false (fun h => absurd (hSXmem _ h) (by decide))
    have hXp : ("@pathname" ∈ (separate_phase_arg_names (some tExit)
        (phase_names (some tExit) [] [])).2.1) = False :=
      eq_false (fun h => absurd (hSXmem _ h) (by decide))
    have hXl : ("@line" ∈ (separate_phase_arg_names (some tExit)
        (phase_names (some tExit) [] [])).2.1) = False :=
      eq_false (fun h => absurd (hSXmem _ h) (by decide))
    have hXg : ("@logger" ∈ (separate_phase_arg_names (some tExit)
        (phase_names (some tExit) [] [])).2.1) = False :=
      eq_false (fun h => absurd (hSXmem _ h) (by decide))
    have hXf : ("@func" ∈ (separate_phase_arg_names (some tExit)
        (phase_names (some tExit) [] [])).2.1) = False :=
      eq_false (fun h => absurd (hSXmem _ h) (by decide))
    rcases hX n hn with rfl | rfl | rfl
    · have hnR : "bar" ∈ (separate_phase_arg_names (some tExit)
          (phase_names (some tExit) [] [])).2.2 := hRXmem _ hn (by decide)
      have hNE : ((separate_phase_arg_names (some tExit)
          (phase_names (some tExit) [] [])).2.2).Nonempty = True := eq_true ⟨_, hnR⟩
      simp only [hdDef, expected_config, mk_wrapper_static, dog_log, lambda_dict]
      by_cases hb : "@ret" ∈ (separate_phase_arg_names (some tExit)
          (phase_names (some tExit) [] [])).2.1 <;>
        simp [hXt, hXp, hXl, hXg, hXf, hNE, hb, dlookup_append, dlookup,
          phase_computer_cfg, phase_extras_cfg]
    · have hnR : "baz" ∈ (separate_phase_arg_names (some tExit)
          (phase_names (some tExit) [] [])).2.2 := hRXmem _ hn (by decide)
      have hNE : ((separate_phase_arg_names (some tExit)
          (phase_names (some tExit) [] [])).2.2).Nonempty = True := eq_true ⟨_, hnR⟩
      simp only [hdDef, expected_config, mk_wrapper_static, dog_log, lambda_dict]
      by_cases hb : "@ret" ∈ (separate_phase_arg_names (some tExit)
          (phase_names (some tExit) [] [])).2.1 <;>
        simp [hXt, hXp, hXl, hXg, hXf, hNE, hb, dlookup_append, dlookup,
          phase_computer_cfg, phase_extras_cfg]
    · have hnS : ("@ret" ∈ (separate_phase_arg_names (some tExit)
          (phase_names (some tExit) [] [])).2.1) = True := eq_true (hRetXmem hn)
      simp only [hdDef, expected_config, mk_wrapper_static, dog_log, lambda_dict]
      simp [hXt, hXp, hXl, hXg, hXf, hnS, dlookup_append, dlookup,
        phase_computer_cfg, phase_extras_cfg]

/-- Concrete enter template over `bar`/`baz`. -/
def c2EnterTemplate : Template :=
  [⟨"The ", some "bar"⟩, ⟨" is a ", some "baz"⟩, ⟨"!", none⟩]

/-- Concrete exit template over `@ret`/`bar`. -/
def c2ExitTemplate : Template :=
  [⟨"got ", some "@ret"⟩, ⟨" from ", some "bar"⟩]

/-- Witness for C2 at concrete templates and a concrete call. -/
theorem C2_witness :
    ∃ d w e1 e2,
      dog_init (.strSpec c2EnterTemplate) (.strSpec c2ExitTemplate) .noSpec []
        true false .noneVal = .ok d ∧
      dog_call_modelled d ⟨["bar", "baz"], none, none⟩ "f.py" 5 = .ok w ∧
      run_wrapper w ⟨.loggerV "L", [("bar", .str "cake"), ("baz", .str "lie")],
          .func "foo", 0, 1, .ret (.str "res")⟩
        = ([e1, e2], .returned (.str "res")) ∧
      e1.msgFormat = c2EnterTemplate ∧ e1.level = some INFO ∧ e1.extra = none ∧
      render c2EnterTemplate (dlookup e1.mapping) =
        render c2EnterTemplate (dlookup [("bar", .str "cake"), ("baz", .str "lie")]) ∧
      e2.msgFormat = c2ExitTemplate ∧ e2.level = some INFO ∧ e2.extra = none ∧
      render c2ExitTemplate (dlookup e2.mapping) =
        render c2ExitTemplate (dlookup
          [("bar", .str "cake"), ("baz", .str "lie"), ("@ret", .str "res")]) :=
  C2_enter_exit_logging c2EnterTemplate c2ExitTemplate (by decide) (by decide)
    true false .noneVal (.loggerV "L") (.func "foo") 0 1 (.str "res") "f.py" 5

/-! ## C3 -/

/-- **C3.** With only the error phase active and propagation enabled (its
default), a call that raises an exception matching the catch filter emits
exactly one log event — the error-phase message — and then the very same
exception value is re-raised with the guard's own interception frame (the
head of the captured traceback chain) absent; no exit-phase event is
emitted. -/
theorem C3_error_only_propagation (tErr : Template) (sig : FuncSig)
    (hpos : some_format_arg_names_are_positional (get_format_arg_names tErr) = false)
    (hcomp : ∀ n ∈ get_format_arg_names tErr, starts_with_char n '>' = false)
    (hspec : ∀ n ∈ get_format_arg_names tErr, starts_with_char n '@' = true →
      n ∈ ({"@pathname", "@line", "@logger", "@func", "@time", "@err",
            "@traceback"} : Finset String))
    (hreg : ∀ n ∈ get_format_arg_names tErr, starts_with_char n '@' = false →
      n ∈ func_arg_set sig)
    (excI : Bool) (dr : Value) (lg fo excVal : Value)
    (callArgs : List (String × Value)) (t1 t2 : Int)
    (guardFrame : TracebackEntry) (rest : List TracebackEntry)
    (pathname : String) (line : Int) :
    ∃ d w e,
      dog_init .noSpec .noSpec (.strSpec tErr) [] true excI dr = .ok d ∧
      dog_call_modelled d sig pathname line = .ok w ∧
      run_wrapper w ⟨lg, callArgs, fo, t1, t2,
          .raiseMatch excVal (guardFrame :: rest)⟩
        = ([e], .raised excVal rest) ∧
      e.msgFormat = tErr ∧ e.level = some INFO := by
  have hSRmem : ∀ n ∈ (separate_phase_arg_names (some tErr)
      (phase_names (some tErr) [] [])).2.1,
      n ∈ ({"@pathname", "@line", "@logger", "@func", "@time", "@err",
            "@traceback"} : Finset String) := by
    intro n hn
    rw [special_set_eq, phase_names_no_providers] at hn
    simp only [tnames, List.mem_toFinset, List.mem_filter] at hn
    exact hspec n hn.1.1 hn.2
  have hCR : (separate_phase_arg_names (some tErr)
      (phase_names (some tErr) [] [])).1 = ∅ := by
    rw [computed_set_eq, phase_names_no_providers]
    apply Finset.eq_empty_iff_forall_not_mem.2
    intro n hn
    simp only [tnames, List.mem_toFinset, List.mem_filter] at hn
    rw [hcomp n hn.1] at hn
    exact absurd hn.2 (by decide)
  have hd : dog_init .noSpec .noSpec (.strSpec tErr) [] true excI dr =
      .ok (expected_config none none (some tErr) [] [] [] [] [] []
        true excI dr) := by
    rw [dog_init_resolve_congr .noSpec (phase_spec none [] [])
      .noSpec (phase_spec none [] [])
      (.strSpec tErr) (phase_spec (some tErr) [] []) [] true excI dr rfl rfl rfl]
    apply dog_init_phase_spec <;> try rfl
    · simpa [tnames] using hpos
    · simp [separate_phase_arg_names]
    · simp [separate_phase_arg_names]
    · intro n hn
      exact Finset.mem_of_subset (by decide) (hSRmem n hn)
    · rintro ⟨-, hmem⟩
      have := hSRmem _ hmem
      exact absurd this (by decide)
    · simp [separate_phase_arg_names]
    · simp [separate_phase_arg_names]
    · simp [separate_phase_arg_names]
    · simp [separate_phase_arg_names]
    · intro n hn; rw [hCR] at hn; exact absurd hn (Finset.not_mem_empty _)
    · intro n hn; rw [hCR] at hn; exact absurd hn (Finset.not_mem_empty _)
  set d := expected_config none none (some tErr) [] [] [] [] [] [] true excI dr
    with hdDef
  have hcheck : dog_check_function_args d sig = .ok () := by
    rw [dog_check_function_args_eq, if_neg]
    rw [Finset.not_nonempty_iff_eq_empty, Finset.sdiff_eq_empty_iff_subset]
    intro n hn
    rcases Finset.mem_union.1 hn with hn' | hn'
    · rcases Finset.mem_union.1 hn' with hn'' | hn''
      · exact absurd hn'' (by simp [hdDef, expected_config, separate_phase_arg_names])
      · exact absurd hn'' (by simp [hdDef, expected_config, separate_phase_arg_names])
    · rw [hdDef] at hn'
      have hn2 : n ∈ (separate_phase_arg_names (some tErr)
          (phase_names (some tErr) [] [])).2.2 := hn'
      rw [regular_set_eq, phase_names_no_providers] at hn2
      simp only [tnames, List.mem_toFinset, List.mem_filter] at hn2
      exact hreg n hn2.1.1 (by simpa using hn2.2)
  have hw : dog_call_modelled d sig pathname line =
      .ok (mk_wrapper_static d pathname line) := by
    simp [dog_call_modelled, hcheck, get_caller_pathname_and_line, bind,
      Except.bind, pure, Except.pure]
  exact ⟨d, mk_wrapper_static d pathname line, _, hd, hw, rfl, rfl, rfl⟩

/-- Concrete error template over `@err`/`@line`. -/
def c3ErrorTemplate : Template :=
  [⟨"boom ", some "@err"⟩, ⟨" at line ", some "@line"⟩]

/-- Witness for C3 at a concrete error-only configuration and a concrete
matching raise. -/
theorem C3_witness :
    ∃ d w e,
      dog_init .noSpec .noSpec (.strSpec c3ErrorTemplate) [] true false
        .noneVal = .ok d ∧
      dog_call_modelled d ⟨["a"], none, none⟩ "f.py" 9 = .ok w ∧
      run_wrapper w ⟨.loggerV "L", [("a", .int 1)], .func "foo", 0, 1,
          .raiseMatch (.exc 7) (⟨"dog.py", 741, "wrapper"⟩ ::
            [⟨"mod.py", 10, "foo"⟩])⟩
        = ([e], .raised (.exc 7) [⟨"mod.py", 10, "foo"⟩]) ∧
      e.msgFormat = c3ErrorTemplate ∧ e.level = some INFO :=
  C3_error_only_propagation c3ErrorTemplate ⟨["a"], none, none⟩
    (by decide) (by decide) (by decide) (by decide)
    false .noneVal (.loggerV "L") (.func "foo") (.exc 7) [("a", .int 1)] 0 1
    ⟨"dog.py", 741, "wrapper"⟩ [⟨"mod.py", 10, "foo"⟩] "f.py" 9

/-! ## C6 -/

/-- A successful `_get_phases_arg_names` on an enabled phase yields the
template's field names followed by the providers' requests. -/
lemma phase_arg_names_some_shape (f : Template) (E C : Option JoinedDyn)
    (ns : List String) (h : phase_arg_names (some f) E C = .ok ns) :
    ∃ tail, ns = get_format_arg_names f ++ tail := by
  cases E <;> cases C <;>
    cases hEe : (get_format_arg_names f).isEmpty <;>
    cases hc : check_format_arg_names_no_positional (get_format_arg_names f) <;>
    simp only [phase_arg_names, hEe, hc, bind, Except.bind, pure, Except.pure,
      Bool.false_eq_true, if_true, if_false, reduceIte] at h <;>
    first
      | exact Except.noConfusion h
      | (obtain rfl := (Except.ok.inj h).symm
         first
           | exact ⟨_, rfl⟩
           | exact ⟨_, by rw [List.append_assoc]⟩
           | exact ⟨[], by simp⟩)

/-- With a `some` template, the separated special set contains `@ret`
whenever the arg-name list does. -/
lemma ret_mem_special (f : Template) (ns : List String)
    (h : "@ret" ∈ ns) :
    "@ret" ∈ (separate_phase_arg_names (some f) ns).2.1 := by
  rw [special_set_eq]
  simp only [List.mem_toFinset, List.mem_filter]
  exact ⟨⟨h, by decide⟩, by decide⟩

/-- `@ret` in the error template with propagation enabled: construction can
never succeed, whatever the other configuration. -/
lemma dog_init_ret_propagation_fails (enterS exitS : Spec) (extras : List DynClass)
    (excI : Bool) (dr : Value) (tErr : Template)
    (hret : "@ret" ∈ get_format_arg_names tErr) (d : DogConfig) :
    dog_init enterS exitS (.strSpec tErr) extras true excI dr ≠ .ok d := by
  intro heq
  simp only [dog_init, bind, Except.bind, resolve_specification,
    resolve_specification_string, throw, throwThe, MonadExceptOf.throw] at heq
  split at heq
  · exact Except.noConfusion heq
  · split at heq
    · exact Except.noConfusion heq
    · split at heq
      · exact Except.noConfusion heq
      · split at heq
        · exact Except.noConfusion heq
        · split at heq
          · exact Except.noConfusion heq
          · rename_i rE _ rX _ nsE _ nsX _ nsR h5
            have hmem : "@ret" ∈ (separate_phase_arg_names (some tErr) nsR).2.1 := by
              obtain ⟨tail, rfl⟩ := phase_arg_names_some_shape _ _ _ _ h5
              exact ret_mem_special _ _ (List.mem_append_left _ hret)
            split at heq
            · exact Except.noConfusion heq
            · split at heq
              · exact Except.noConfusion heq
              · split at heq
                · exact Except.noConfusion heq
                · rw [if_pos ⟨trivial, hmem⟩] at heq
                  exact Except.noConfusion heq

/-- **C6.** With exception propagation enabled (the default), an error-phase
template requesting `@ret` makes dog construction fail, whatever the rest of
the configuration; with propagation disabled the same shape of configuration
is accepted, and in the error-phase event `@ret` denotes the configured
default return value. -/
theorem C6_ret_error_phase :
    (∀ (enterS exitS : Spec) (extras : List DynClass) (excI : Bool) (dr : Value)
        (tErr : Template), "@ret" ∈ get_format_arg_names tErr →
        ∀ d : DogConfig,
          dog_init enterS exitS (.strSpec tErr) extras true excI dr ≠ .ok d) ∧
    (∀ (tErr : Template) (sig : FuncSig),
      "@ret" ∈ get_format_arg_names tErr →
      some_format_arg_names_are_positional (get_format_arg_names tErr) = false →
      (∀ n ∈ get_format_arg_names tErr, starts_with_char n '>' = false) →
      (∀ n ∈ get_format_arg_names tErr, starts_with_char n '@' = true →
        n ∈ ({"@pathname", "@line", "@logger", "@func", "@time", "@ret", "@err",
              "@traceback"} : Finset String)) →
      (∀ n ∈ get_format_arg_names tErr, starts_with_char n '@' = false →
        n ∈ func_arg_set sig) →
      ∀ (excI : Bool) (dr lg fo excVal : Value)
        (callArgs : List (String × Value)) (t1 t2 : Int)
        (tbChain : List TracebackEntry) (pathname : String) (line : Int),
      ∃ d w e,
        dog_init .noSpec .noSpec (.strSpec tErr) [] false excI dr = .ok d ∧
        dog_call_modelled d sig pathname line = .ok w ∧
        run_wrapper w ⟨lg, callArgs, fo, t1, t2, .raiseMatch excVal tbChain⟩
          = ([e], .returned dr) ∧
        e.msgFormat = tErr ∧
        dlookup e.mapping "@ret" = some dr) := by
  constructor
  · exact fun enterS exitS extras excI dr tErr hret d =>
      dog_init_ret_propagation_fails enterS exitS extras excI dr tErr hret d
  · intro tErr sig hret hpos hcomp hspec hreg excI dr lg fo excVal callArgs t1 t2
      tbChain pathname line
    have hSRmem : ∀ n ∈ (separate_phase_arg_names (some tErr)
        (phase_names (some tErr) [] [])).2.1,
        n ∈ ({"@pathname", "@line", "@logger", "@func", "@time", "@ret", "@err",
              "@traceback"} : Finset String) := by
      intro n hn
      rw [special_set_eq, phase_names_no_providers] at hn
      simp only [tnames, List.mem_toFinset, List.mem_filter] at hn
      exact hspec n hn.1.1 hn.2
    have hCR : (separate_phase_arg_names (some tErr)
        (phase_names (some tErr) [] [])).1 = ∅ := by
      rw [computed_set_eq, phase_names_no_providers]
      apply Finset.eq_empty_iff_forall_not_mem.2
      intro n hn
      simp only [tnames, List.mem_toFinset, List.mem_filter] at hn
      rw [hcomp n hn.1] at hn
      exact absurd hn.2 (by decide)
    have hd : dog_init .noSpec .noSpec (.strSpec tErr) [] false excI dr =
        .ok (expected_config none none (some tErr) [] [] [] [] [] []
          false excI dr) := by
      rw [dog_init_resolve_congr .noSpec (phase_spec none [] [])
        .noSpec (phase_spec none [] [])
        (.strSpec tErr) (phase_spec (some tErr) [] []) [] false excI dr rfl rfl rfl]
      apply dog_init_phase_spec <;> try rfl
      · simpa [tnames] using hpos
      · simp [separate_phase_arg_names]
      · simp [separate_phase_arg_names]
      · intro n hn
        exact Finset.mem_of_subset (by decide) (hSRmem n hn)
      · rintro ⟨hfalse, -⟩
        exact Bool.noConfusion hfalse
      · simp [separate_phase_arg_names]
      · simp [separate_phase_arg_names]
      · simp [separate_phase_arg_names]
      · simp [separate_phase_arg_names]
      · intro n hn; rw [hCR] at hn; exact absurd hn (Finset.not_mem_empty _)
      · intro n hn; rw [hCR] at hn; exact absurd hn (Finset.not_mem_empty _)
    set d := expected_config none none (some tErr) [] [] [] [] [] [] false excI dr
      with hdDef
    have hcheck : dog_check_function_args d sig = .ok () := by
      rw [dog_check_function_args_eq, if_neg]
      rw [Finset.not_nonempty_iff_eq_empty, Finset.sdiff_eq_empty_iff_subset]
      intro n hn
      rcases Finset.mem_union.1 hn with hn' | hn'
      · rcases Finset.mem_union.1 hn' with hn'' | hn''
        · exact absurd hn'' (by simp [hdDef, expected_config, separate_phase_arg_names])
        · exact absurd hn'' (by simp [hdDef, expected_config, separate_phase_arg_names])
      · rw [hdDef] at hn'
        have hn2 : n ∈ (separate_phase_arg_names (some tErr)
            (phase_names (some tErr) [] [])).2.2 := hn'
        rw [regular_set_eq, phase_names_no_providers] at hn2
        simp only [tnames, List.mem_toFinset, List.mem_filter] at hn2
        exact hreg n hn2.1.1 (by simpa using hn2.2)
    have hw : dog_call_modelled d sig pathname line =
        .ok (mk_wrapper_static d pathname line) := by
      simp [dog_call_modelled, hcheck, get_caller_pathname_and_line, bind,
        Except.bind, pure, Except.pure]
    refine ⟨d, mk_wrapper_static d pathname line, _, hd, hw, rfl, rfl, ?_⟩
    -- the default-return builder is the last dictionary updated in, so its
    -- `@ret` binding wins
    have hb : "@ret" ∈ (separate_phase_arg_names (some tErr)
        (phase_names (some tErr) [] [])).2.1 := by
      apply ret_mem_special
      rw [phase_names_no_providers]
      simpa [tnames] using hret
    simp only [hdDef, expected_config, mk_wrapper_static, dog_log, lambda_dict]
    simp [hb, phase_computer_cfg, phase_extras_cfg, dlookup_append, dlookup]

/-- Concrete error template referencing `@ret`. -/
def c6RetTemplate : Template := [⟨"returning ", some "@ret"⟩]

/-- Witness for C6: with propagation the concrete configuration is rejected;
without it, the call's error event binds `@ret` to the default 123 and 123
is returned. -/
theorem C6_witness :
    decoration_ok (dog_init .noSpec .noSpec (.strSpec c6RetTemplate) [] true false
      .noneVal) = false ∧
    (∃ d w e, dog_init .noSpec .noSpec (.strSpec c6RetTemplate) [] false false
        (.int 123) = .ok d ∧
      dog_call_modelled d ⟨[], none, none⟩ "f.py" 2 = .ok w ∧
      run_wrapper w ⟨.loggerV "L", [], .func "foo", 0, 1,
          .raiseMatch (.exc 3) [⟨"dog.py", 741, "wrapper"⟩]⟩
        = ([e], .returned (.int 123)) ∧
      e.msgFormat = c6RetTemplate ∧ dlookup e.mapping "@ret" = some (.int 123)) := by
  constructor
  · cases h : dog_init .noSpec .noSpec (.strSpec c6RetTemplate) [] true false
        .noneVal with
    | error e => rfl
    | ok d =>
      exact absurd h (C6_ret_error_phase.1 .noSpec .noSpec [] false .noneVal
        c6RetTemplate (by decide) d)
  · exact C6_ret_error_phase.2 c6RetTemplate ⟨[], none, none⟩ (by decide)
      (by decide) (by decide) (by decide) (by decide) false (.int 123)
      (.loggerV "L") (.func "foo") (.exc 3) [] 0 1
      [⟨"dog.py", 741, "wrapper"⟩] "f.py" 2

/-! ## C5 -/

/-- Construction failure when the enter phase uses unsupported special
names. -/
lemma dog_init_fails_enter_special (et xt rt : Option Template)
    (eP xP rP eC xC rC : List DynClass) (propag excI : Bool) (dr : Value)
    (hpe : some_format_arg_names_are_positional (tnames et) = false)
    (hpx : some_format_arg_names_are_positional (tnames xt) = false)
    (hpr : some_format_arg_names_are_positional (tnames rt) = false)
    (hbad : ¬ (separate_phase_arg_names et (phase_names et eP eC)).2.1 ⊆ _ENTER_ARGS) :
    dog_init (phase_spec et eP eC) (phase_spec xt xP xC) (phase_spec rt rP rC)
      [] propag excI dr =
      .error (.valueError "unsupported special arg-names for enter logging phase"
        ((separate_phase_arg_names et (phase_names et eP eC)).2.1 \ _ENTER_ARGS)) := by
  simp [dog_init, resolve_phase_spec, add_phase_extras_none, join_phase_computers,
    phase_arg_names_ok _ _ _ hpe, phase_arg_names_ok _ _ _ hpx,
    phase_arg_names_ok _ _ _ hpr, check_special_fail _ _ _ hbad,
    bind, Except.bind]

/-- Construction failure when the exit phase uses unsupported special names
(the enter phase passing its check). -/
lemma dog_init_fails_exit_special (et xt rt : Option Template)
    (eP xP rP eC xC rC : List DynClass) (propag excI : Bool) (dr : Value)
    (hpe : some_format_arg_names_are_positional (tnames et) = false)
    (hpx : some_format_arg_names_are_positional (tnames xt) = false)
    (hpr : some_format_arg_names_are_positional (tnames rt) = false)
    (hse : (separate_phase_arg_names et (phase_names et eP eC)).2.1 ⊆ _ENTER_ARGS)
    (hbad : ¬ (separate_phase_arg_names xt (phase_names xt xP xC)).2.1 ⊆ _EXIT_ARGS) :
    dog_init (phase_spec et eP eC) (phase_spec xt xP xC) (phase_spec rt rP rC)
      [] propag excI dr =
      .error (.valueError "unsupported special arg-names for exit logging phase"
        ((separate_phase_arg_names xt (phase_names xt xP xC)).2.1 \ _EXIT_ARGS)) := by
  simp [dog_init, resolve_phase_spec, add_phase_extras_none, join_phase_computers,
    phase_arg_names_ok _ _ _ hpe, phase_arg_names_ok _ _ _ hpx,
    phase_arg_names_ok _ _ _ hpr, check_special_ok _ _ _ hse,
    check_special_fail _ _ _ hbad, bind, Except.bind]

/-- Construction failure when the error phase uses unsupported special names
(enter and exit passing their checks). -/
lemma dog_init_fails_error_special (et xt rt : Option Template)
    (eP xP rP eC xC rC : List DynClass) (propag excI : Bool) (dr : Value)
    (hpe : some_format_arg_names_are_positional (tnames et) = false)
    (hpx : some_format_arg_names_are_positional (tnames xt) = false)
    (hpr : some_format_arg_names_are_positional (tnames rt) = false)
    (hse : (separate_phase_arg_names et (phase_names et eP eC)).2.1 ⊆ _ENTER_ARGS)
    (hsx : (separate_phase_arg_names xt (phase_names xt xP xC)).2.1 ⊆ _EXIT_ARGS)
    (hbad : ¬ (separate_phase_arg_names rt (phase_names rt rP rC)).2.1 ⊆ _ERROR_ARGS) :
    dog_init (phase_spec et eP eC) (phase_spec xt xP xC) (phase_spec rt rP rC)
      [] propag excI dr =
      .error (.valueError "unsupported special arg-names for error logging phase"
        ((separate_phase_arg_names rt (phase_names rt rP rC)).2.1 \ _ERROR_ARGS)) := by
  simp [dog_init, resolve_phase_spec, add_phase_extras_none, join_phase_computers,
    phase_arg_names_ok _ _ _ hpe, phase_arg_names_ok _ _ _ hpx,
    phase_arg_names_ok _ _ _ hpr, check_special_ok _ _ _ hse,
    check_special_ok _ _ _ hsx, check_special_fail _ _ _ hbad,
    bind, Except.bind]

/-- **C5 (amended).** For phase configurations whose templates parse
positional-free, construction succeeds when every phase's special arg-names
lie in that phase's supported set — enter `{@pathname, @line, @logger,
@func}`; exit additionally `{@time, @ret}`; error additionally `{@err,
@traceback}` — *provided also* that `@ret` is not requested by the error
phase while propagation is enabled and that every computed arg-name is
well-formed and supplied by that phase's Computed providers; and it fails
with the unsupported-special-name `ValueError` listing exactly the offending
names of the first violating phase whenever some phase's template or
provider dependencies use a special name outside that phase's set. -/
theorem C5_special_name_support (et xt rt : Option Template)
    (eP xP rP eC xC rC : List DynClass) (propag excI : Bool) (dr : Value)
    (hpe : some_format_arg_names_are_positional (tnames et) = false)
    (hpx : some_format_arg_names_are_positional (tnames xt) = false)
    (hpr : some_format_arg_names_are_positional (tnames rt) = false) :
    (((separate_phase_arg_names et (phase_names et eP eC)).2.1 ⊆ _ENTER_ARGS) →
     ((separate_phase_arg_names xt (phase_names xt xP xC)).2.1 ⊆ _EXIT_ARGS) →
     ((separate_phase_arg_names rt (phase_names rt rP rC)).2.1 ⊆ _ERROR_ARGS) →
     ¬(propag = true ∧
        "@ret" ∈ (separate_phase_arg_names rt (phase_names rt rP rC)).2.1) →
     (∀ n ∈ (separate_phase_arg_names et (phase_names et eP eC)).1,
        ¬ n.toList[1]? = some '_') →
     (∀ n ∈ (separate_phase_arg_names et (phase_names et eP eC)).1, n.drop 1 ∈
        (match phase_computer_cfg et eC with
         | some j => j.attrNames.toFinset
         | none => (∅ : Finset String))) →
     (∀ n ∈ (separate_phase_arg_names xt (phase_names xt xP xC)).1,
        ¬ n.toList[1]? = some '_') →
     (∀ n ∈ (separate_phase_arg_names xt (phase_names xt xP xC)).1, n.drop 1 ∈
        (match phase_computer_cfg xt xC with
         | some j => j.attrNames.toFinset
         | none => (∅ : Finset String))) →
     (∀ n ∈ (separate_phase_arg_names rt (phase_names rt rP rC)).1,
        ¬ n.toList[1]? = some '_') →
     (∀ n ∈ (separate_phase_arg_names rt (phase_names rt rP rC)).1, n.drop 1 ∈
        (match phase_computer_cfg rt rC with
         | some j => j.attrNames.toFinset
         | none => (∅ : Finset String))) →
     dog_init (phase_spec et eP eC) (phase_spec xt xP xC) (phase_spec rt rP rC)
        [] propag excI dr =
       .ok (expected_config et xt rt eP xP rP eC xC rC propag excI dr)) ∧
    (¬ (separate_phase_arg_names et (phase_names et eP eC)).2.1 ⊆ _ENTER_ARGS →
     dog_init (phase_spec et eP eC) (phase_spec xt xP xC) (phase_spec rt rP rC)
        [] propag excI dr =
       .error (.valueError "unsupported special arg-names for enter logging phase"
         ((separate_phase_arg_names et (phase_names et eP eC)).2.1 \ _ENTER_ARGS))) ∧
    ((separate_phase_arg_names et (phase_names et eP eC)).2.1 ⊆ _ENTER_ARGS →
     ¬ (separate_phase_arg_names xt (phase_names xt xP xC)).2.1 ⊆ _EXIT_ARGS →
     dog_init (phase_spec et eP eC) (phase_spec xt xP xC) (phase_spec rt rP rC)
        [] propag excI dr =
       .error (.valueError "unsupported special arg-names for exit logging phase"
         ((separate_phase_arg_names xt (phase_names xt xP xC)).2.1 \ _EXIT_ARGS))) ∧
    ((separate_phase_arg_names et (phase_names et eP eC)).2.1 ⊆ _ENTER_ARGS →
     (separate_phase_arg_names xt (phase_names xt xP xC)).2.1 ⊆ _EXIT_ARGS →
     ¬ (separate_phase_arg_names rt (phase_names rt rP rC)).2.1 ⊆ _ERROR_ARGS →
     dog_init (phase_spec et eP eC) (phase_spec xt xP xC) (phase_spec rt rP rC)
        [] propag excI dr =
       .error (.valueError "unsupported special arg-names for error logging phase"
         ((separate_phase_arg_names rt (phase_names rt rP rC)).2.1 \ _ERROR_ARGS))) := by
  refine ⟨?_, ?_, ?_, ?_⟩
  · intro hse hsx hsr hret hce1 hce2 hcx1 hcx2 hcr1 hcr2
    exact dog_init_phase_spec et xt rt eP xP rP eC xC rC propag excI dr
      hpe hpx hpr hse hsx hsr hret hce1 hce2 hcx1 hcx2 hcr1 hcr2
  · intro hbad
    exact dog_init_fails_enter_special et xt rt eP xP rP eC xC rC propag excI dr
      hpe hpx hpr hbad
  · intro hse hbad
    exact dog_init_fails_exit_special et xt rt eP xP rP eC xC rC propag excI dr
      hpe hpx hpr hse hbad
  · intro hse hsx hbad
    exact dog_init_fails_error_special et xt rt eP xP rP eC xC rC propag excI dr
      hpe hpx hpr hse hsx hbad

/-- Concrete enter template misusing `@time` (exit/error-only). -/
def c5BadEnterTemplate : Template := [⟨"took ", some "@time"⟩]

/-- Concrete legal templates for all three phases. -/
def c5EnterTemplate : Template := [⟨"in ", some "@func"⟩]

/-- Concrete exit template using `@time`/`@ret`. -/
def c5ExitTemplate : Template := [⟨"out ", some "@time"⟩, ⟨" ", some "@ret"⟩]

/-- Concrete error template using `@err`. -/
def c5ErrorTemplate : Template := [⟨"err ", some "@err"⟩]

/-- Witness for C5: the legal concrete configuration (propagation disabled,
so `@ret` in exit and error sets is fine) is accepted; swapping the enter
template for one using `@time` is rejected with the offending set. -/
theorem C5_witness :
    dog_init (phase_spec (some c5EnterTemplate) [] [])
      (phase_spec (some c5ExitTemplate) [] [])
      (phase_spec (some c5ErrorTemplate) [] []) [] false false .noneVal =
      .ok (expected_config (some c5EnterTemplate) (some c5ExitTemplate)
        (some c5ErrorTemplate) [] [] [] [] [] [] false false .noneVal) ∧
    dog_init (phase_spec (some c5BadEnterTemplate) [] [])
      (phase_spec (some c5ExitTemplate) [] [])
      (phase_spec (some c5ErrorTemplate) [] []) [] false false .noneVal =
      .error (.valueError "unsupported special arg-names for enter logging phase"
        ((separate_phase_arg_names (some c5BadEnterTemplate)
          (phase_names (some c5BadEnterTemplate) [] [])).2.1 \ _ENTER_ARGS)) :=
  ⟨(C5_special_name_support (some c5EnterTemplate) (some c5ExitTemplate)
      (some c5ErrorTemplate) [] [] [] [] [] [] false false .noneVal
      (by decide) (by decide) (by decide)).1
      (by decide) (by decide) (by decide) (by decide) (by decide) (by decide)
      (by decide) (by decide) (by decide) (by decide),
   (C5_special_name_support (some c5BadEnterTemplate) (some c5ExitTemplate)
      (some c5ErrorTemplate) [] [] [] [] [] [] false false .noneVal
      (by decide) (by decide) (by decide)).2.1 (by decide)⟩

/-- Counterexample to C5 as frozen: the concrete configuration
`error='{@ret}'` (propagation left at its default) parses, and its only
special name `@ret` lies within the error phase's allowed set, yet dog
construction fails — C6's propagation rule rejects it, so "construction
succeeds whenever each phase's special names lie within its allowed set" is
false. -/
theorem C5_counterexample :
    ((separate_phase_arg_names (some c6RetTemplate)
      (phase_names (some c6RetTemplate) [] [])).2.1 ⊆ _ERROR_ARGS) ∧
    decoration_ok (dog_init .noSpec .noSpec (.strSpec c6RetTemplate) [] true false
      .noneVal) = false := by
  constructor
  · decide
  · decide

/-! ## C9 -/

/-- Generic override run: with two Extra providers attached to the enter
phase in sequence, the emitted record's `value` attribute comes from the
provider later in the attachment sequence. -/
lemma extra_override_general (P1 P2 : DynClass)
    (f2 : List (String × Value) → Value)
    (h1args : P1.declaredArgs = []) (h2args : P2.declaredArgs = [])
    (h1attrs : ∃ f1, P1.attrs = [("value", f1)])
    (h2attrs : P2.attrs = [("value", f2)])
    (propag excI : Bool) (dr lg fo v : Value)
    (callArgs : List (String × Value)) (t1 t2 : Int)
    (pathname : String) (line : Int) :
    ∃ d w e,
      dog_init (.seqSpec [.strPart c7PlainTemplate, .extraPart P1, .extraPart P2])
        .noSpec .noSpec [] propag excI dr = .ok d ∧
      dog_call_modelled d ⟨[], none, none⟩ pathname line = .ok w ∧
      run_wrapper w ⟨lg, callArgs, fo, t1, t2, .ret v⟩ = ([e], .returned v) ∧
      e.msgFormat = c7PlainTemplate ∧
      e.extra = some [("value", f2 [])] := by
  obtain ⟨f1, h1a⟩ := h1attrs
  have hnames : phase_names (some c7PlainTemplate) [P1, P2] [] = [] := by
    simp [phase_names, c7PlainTemplate, get_format_arg_names,
      iter_dynamic_attribute_requested_arg_names, join_dynamic_attributes,
      h1args, h2args]
  have hsep : separate_phase_arg_names (some c7PlainTemplate)
      (phase_names (some c7PlainTemplate) [P1, P2] []) = (∅, ∅, ∅) := by
    rw [hnames]
    simp [separate_phase_arg_names, separate_computed_arg_names,
      separate_special_arg_names, filter2]
  have hd : dog_init
      (.seqSpec [.strPart c7PlainTemplate, .extraPart P1, .extraPart P2])
      .noSpec .noSpec [] propag excI dr =
      .ok (expected_config (some c7PlainTemplate) none none [P1, P2] [] []
        [] [] [] propag excI dr) := by
    rw [dog_init_resolve_congr
      (.seqSpec [.strPart c7PlainTemplate, .extraPart P1, .extraPart P2])
      (phase_spec (some c7PlainTemplate) [P1, P2] [])
      .noSpec (phase_spec none [] []) .noSpec (phase_spec none [] [])
      [] propag excI dr rfl rfl rfl]
    apply dog_init_phase_spec <;> try rfl
    · rw [hsep]; exact Finset.empty_subset _
    · simp [separate_phase_arg_names]
    · simp [separate_phase_arg_names]
    · rintro ⟨-, hmem⟩
      exact absurd hmem (by simp [separate_phase_arg_names])
    · intro n hn; rw [hsep] at hn; exact absurd hn (Finset.not_mem_empty _)
    · intro n hn; rw [hsep] at hn; exact absurd hn (Finset.not_mem_empty _)
    · simp [separate_phase_arg_names]
    · simp [separate_phase_arg_names]
    · simp [separate_phase_arg_names]
    · simp [separate_phase_arg_names]
  set d := expected_config (some c7PlainTemplate) none none [P1, P2] [] []
    [] [] [] propag excI dr with hdDef
  have hcheck : dog_check_function_args d ⟨[], none, none⟩ = .ok () := by
    rw [dog_check_function_args_eq, if_neg]
    rw [Finset.not_nonempty_iff_eq_empty, Finset.sdiff_eq_empty_iff_subset]
    intro n hn
    rcases Finset.mem_union.1 hn with hn' | hn'
    · rcases Finset.mem_union.1 hn' with hn'' | hn''
      · rw [hdDef] at hn''
        have : n ∈ (separate_phase_arg_names (some c7PlainTemplate)
            (phase_names (some c7PlainTemplate) [P1, P2] [])).2.2 := hn''
        rw [hsep] at this
        exact absurd this (Finset.not_mem_empty _)
      · exact absurd hn'' (by simp [hdDef, expected_config, separate_phase_arg_names])
    · exact absurd hn' (by simp [hdDef, expected_config, separate_phase_arg_names])
  have hw : dog_call_modelled d ⟨[], none, none⟩ pathname line =
      .ok (mk_wrapper_static d pathname line) := by
    simp [dog_call_modelled, hcheck, get_caller_pathname_and_line, bind,
      Except.bind, pure, Except.pure]
  refine ⟨d, mk_wrapper_static d pathname line, _, hd, hw, rfl, rfl, ?_⟩
  have hattr : (join_dynamic_attributes [P1, P2]).attrNames = ["value"] := by
    simp [JoinedDyn.attrNames, join_dynamic_attributes, h1a, h2attrs]
  have hget : (join_dynamic_attributes [P1, P2]).getattr "value" = some f2 := by
    simp [JoinedDyn.getattr, join_dynamic_attributes, h2attrs]
  simp only [hdDef, expected_config, mk_wrapper_static, dog_log, lambda_dict]
  simp [hsep, phase_extras_cfg, phase_computer_cfg, hattr, hget]

/-- **C9.** When two Extra providers attached to one phase both define a
`value` attribute method, the provider later in the attachment sequence
wins: the emitted record's `value` attribute equals the later provider's
method result, in either attachment order (the providers become
method-resolution bases in reversed order). -/
theorem C9_extra_provider_override (A B : DynClass)
    (fA fB : List (String × Value) → Value)
    (hA : A.attrs = [("value", fA)]) (hB : B.attrs = [("value", fB)])
    (hAd : A.declaredArgs = []) (hBd : B.declaredArgs = [])
    (propag excI : Bool) (dr lg fo v : Value)
    (callArgs : List (String × Value)) (t1 t2 : Int)
    (pathname : String) (line : Int) :
    (∃ d w e,
      dog_init (.seqSpec [.strPart c7PlainTemplate, .extraPart A, .extraPart B])
        .noSpec .noSpec [] propag excI dr = .ok d ∧
      dog_call_modelled d ⟨[], none, none⟩ pathname line = .ok w ∧
      run_wrapper w ⟨lg, callArgs, fo, t1, t2, .ret v⟩ = ([e], .returned v) ∧
      e.msgFormat = c7PlainTemplate ∧
      e.extra = some [("value", fB [])]) ∧
    (∃ d w e,
      dog_init (.seqSpec [.strPart c7PlainTemplate, .extraPart B, .extraPart A])
        .noSpec .noSpec [] propag excI dr = .ok d ∧
      dog_call_modelled d ⟨[], none, none⟩ pathname line = .ok w ∧
      run_wrapper w ⟨lg, callArgs, fo, t1, t2, .ret v⟩ = ([e], .returned v) ∧
      e.msgFormat = c7PlainTemplate ∧
      e.extra = some [("value", fA [])]) :=
  ⟨extra_override_general A B fB hAd hBd ⟨fA, hA⟩ hB propag excI dr lg fo v
      callArgs t1 t2 pathname line,
   extra_override_general B A fA hBd hAd ⟨fB, hB⟩ hA propag excI dr lg fo v
      callArgs t1 t2 pathname line⟩

/-- Concrete Extra provider whose `value()` returns 1. -/
def c9ProviderA : DynClass := ⟨[("value", fun _ => Value.int 1)], []⟩

/-- Concrete Extra provider whose `value()` returns 2. -/
def c9ProviderB : DynClass := ⟨[("value", fun _ => Value.int 2)], []⟩

/-- Witness for C9 at two concrete providers: attached as `[A, B]` the
record carries `value = 2` (B wins); attached as `[B, A]` it carries
`value = 1` (A wins). -/
theorem C9_witness :
    (∃ d w e,
      dog_init (.seqSpec [.strPart c7PlainTemplate, .extraPart c9ProviderA,
          .extraPart c9ProviderB]) .noSpec .noSpec [] true false .noneVal = .ok d ∧
      dog_call_modelled d ⟨[], none, none⟩ "f.py" 4 = .ok w ∧
      run_wrapper w ⟨.loggerV "L", [], .func "foo", 0, 1, .ret (.str "r")⟩
        = ([e], .returned (.str "r")) ∧
      e.msgFormat = c7PlainTemplate ∧
      e.extra = some [("value", Value.int 2)]) ∧
    (∃ d w e,
      dog_init (.seqSpec [.strPart c7PlainTemplate, .extraPart c9ProviderB,
          .extraPart c9ProviderA]) .noSpec .noSpec [] true false .noneVal = .ok d ∧
      dog_call_modelled d ⟨[], none, none⟩ "f.py" 4 = .ok w ∧
      run_wrapper w ⟨.loggerV "L", [], .func "foo", 0, 1, .ret (.str "r")⟩
        = ([e], .returned (.str "r")) ∧
      e.msgFormat = c7PlainTemplate ∧
      e.extra = some [("value", Value.int 1)]) :=
  C9_extra_provider_override c9ProviderA c9ProviderB
    (fun _ => Value.int 1) (fun _ => Value.int 2) rfl rfl rfl rfl
    true false .noneVal (.loggerV "L") (.func "foo") (.str "r") [] 0 1 "f.py" 4

/-! ## C10 -/

/-- Once the `run_once` cell is filled, further accesses never change it or
re-invoke the thunk. -/
lemma run_once_iterate_stable {α : Type} (f : Unit → α) (n : Nat) (v : α) (c : Nat) :
    run_once_iterate f n (some v, c) = (some v, c) := by
  induction n with
  | zero => rfl
  | succ m ih => simpa [run_once_iterate, run_once_call] using ih

/-- Any positive number of accesses to a fresh `run_once` cell leaves the
thunk's value cached and the thunk invoked exactly once. -/
lemma run_once_iterate_fresh {α : Type} (f : Unit → α) (n : Nat) :
    run_once_iterate f (n + 1) RunOnceState.fresh = (some (f ()), 1) := by
  show run_once_iterate f n (run_once_call f RunOnceState.fresh).2 = _
  simp [run_once_call, RunOnceState.fresh, run_once_iterate_stable]

/-- Every access — the first or any later one — observes the thunk's
value. -/
lemma run_once_access {α : Type} (f : Unit → α) (n : Nat) :
    (run_once_call f (run_once_iterate f n RunOnceState.fresh)).1 = f () := by
  cases n with
  | zero => rfl
  | succ m => rw [run_once_iterate_fresh]; rfl

/-- **C10.** Per-event laziness and caching: a `run_once`-wrapped builder
chain evaluates on the first access, caches its result, and returns the
cache on every later access within the event; and in a decorated
enter phase whose template references the computed field `>x` — possibly
several times — the instrumented `_log` evaluates the underlying builder
chain exactly once per event and invokes the computed attribute method
exactly once per event (the dict comprehension ranges over the frozenset of
computed names). -/
theorem C10_lazy_once_per_event :
    (∀ (α : Type) (f : Unit → α) (n : Nat),
      (run_once_call f (run_once_iterate f n RunOnceState.fresh)).1 = f () ∧
      run_once_iterate f (n + 1) RunOnceState.fresh = (some (f ()), 1)) ∧
    (∀ (t : Template) (fx : List (String × Value) → Value),
      (∀ n ∈ get_format_arg_names t, n = ">x") →
      1 ≤ (get_format_arg_names t).count ">x" →
      ∀ (propag excI : Bool) (dr : Value) (pathname : String) (line : Int),
      ∃ d w,
        dog_init (.seqSpec [.strPart t, .computerPart ⟨[("x", fx)], []⟩])
          .noSpec .noSpec [] propag excI dr = .ok d ∧
        dog_call_modelled d ⟨[], none, none⟩ pathname line = .ok w ∧
        w.enter_computed_arg_names = {">x"} ∧
        (∀ (excInfo : Bool) (lvl : Option Int)
            (builders : List (List (String × Value))),
          dog_log_instrumented excInfo lvl t w.enter_extras w.enter_computer
              w.enter_computed_arg_names builders =
            (dog_log excInfo lvl t w.enter_extras w.enter_computer
              w.enter_computed_arg_names builders, 1, [">x"]) ∧
          ([">x"].count ">x") = 1)) := by
  constructor
  · exact fun α f n => ⟨run_once_access f n, run_once_iterate_fresh f n⟩
  · intro t fx hall hk propag excI dr pathname line
    have hmem : ">x" ∈ get_format_arg_names t :=
      List.count_pos_iff.1 (Nat.lt_of_lt_of_le Nat.zero_lt_one hk)
    have hn : phase_names (some t) [] [⟨[("x", fx)], []⟩] =
        get_format_arg_names t := by
      simp [phase_names, iter_dynamic_attribute_requested_arg_names,
        join_dynamic_attributes]
    have hunc : (get_format_arg_names t).filter
        (fun n => !starts_with_char n '>') = [] := by
      apply List.filter_eq_nil_iff.2
      intro n hnn
      rw [hall n hnn]
      decide
    have hset : (separate_phase_arg_names (some t)
        (phase_names (some t) [] [⟨[("x", fx)], []⟩])).1 = {">x"} := by
      rw [computed_set_eq, hn]
      apply Finset.ext
      intro a
      simp only [List.mem_toFinset, List.mem_filter, Finset.mem_singleton]
      constructor
      · rintro ⟨hmem', -⟩
        exact hall a hmem'
      · rintro rfl
        exact ⟨hmem, by decide⟩
    have hSs : (separate_phase_arg_names (some t)
        (phase_names (some t) [] [⟨[("x", fx)], []⟩])).2.1 = ∅ := by
      rw [special_set_eq, hn, hunc]
      simp
    have hRs : (separate_phase_arg_names (some t)
        (phase_names (some t) [] [⟨[("x", fx)], []⟩])).2.2 = ∅ := by
      rw [regular_set_eq, hn, hunc]
      simp
    have hd : dog_init (.seqSpec [.strPart t, .computerPart ⟨[("x", fx)], []⟩])
        .noSpec .noSpec [] propag excI dr =
        .ok (expected_config (some t) none none [] [] [] [⟨[("x", fx)], []⟩] [] []
          propag excI dr) := by
      rw [dog_init_resolve_congr
        (.seqSpec [.strPart t, .computerPart ⟨[("x", fx)], []⟩])
        (phase_spec (some t) [] [⟨[("x", fx)], []⟩])
        .noSpec (phase_spec none [] []) .noSpec (phase_spec none [] [])
        [] propag excI dr rfl rfl rfl]
      apply dog_init_phase_spec <;> try rfl
      · apply not_positional
        intro n hnn
        simp only [tnames] at hnn
        rw [hall n hnn]
        decide
      · rw [hSs]; exact Finset.empty_subset _
      · simp [separate_phase_arg_names]
      · simp [separate_phase_arg_names]
      · rintro ⟨-, hmem'⟩
        exact absurd hmem' (by simp [separate_phase_arg_names])
      · intro n hnn
        rw [hset] at hnn
        rw [Finset.mem_singleton.1 hnn]
        decide
      · intro n hnn
        rw [hset] at hnn
        rw [Finset.mem_singleton.1 hnn]
        simp [phase_computer_cfg, JoinedDyn.attrNames, join_dynamic_attributes]
        decide
      · simp [separate_phase_arg_names]
      · simp [separate_phase_arg_names]
      · simp [separate_phase_arg_names]
      · simp [separate_phase_arg_names]
    set d := expected_config (some t) none none [] [] [] [⟨[("x", fx)], []⟩] [] []
      propag excI dr with hdDef
    have hcheck : dog_check_function_args d ⟨[], none, none⟩ = .ok () := by
      rw [dog_check_function_args_eq, if_neg]
      rw [Finset.not_nonempty_iff_eq_empty, Finset.sdiff_eq_empty_iff_subset]
      intro n hnn
      rcases Finset.mem_union.1 hnn with hn' | hn'
      · rcases Finset.mem_union.1 hn' with hn'' | hn''
        · rw [hdDef] at hn''
          have : n ∈ (separate_phase_arg_names (some t)
              (phase_names (some t) [] [⟨[("x", fx)], []⟩])).2.2 := hn''
          rw [hRs] at this
          exact absurd this (Finset.not_mem_empty _)
        · exact absurd hn'' (by simp [hdDef, expected_config, separate_phase_arg_names])
      · exact absurd hn' (by simp [hdDef, expected_config, separate_phase_arg_names])
    have hw : dog_call_modelled d ⟨[], none, none⟩ pathname line =
        .ok (mk_wrapper_static d pathname line) := by
      simp [dog_call_modelled, hcheck, get_caller_pathname_and_line, bind,
        Except.bind, pure, Except.pure]
    refine ⟨d, mk_wrapper_static d pathname line, hd, hw, ?_, ?_⟩
    · show (separate_phase_arg_names (some t)
        (phase_names (some t) [] [⟨[("x", fx)], []⟩])).1 = {">x"}
      exact hset
    · intro excInfo lvl builders
      refine ⟨?_, rfl⟩
      have hsort : ((mk_wrapper_static d pathname line).enter_computed_arg_names).sort
          (· ≤ ·) = [">x"] := by
        show ((separate_phase_arg_names (some t)
          (phase_names (some t) [] [⟨[("x", fx)], []⟩])).1).sort (· ≤ ·) = [">x"]
        rw [hset]
        exact Finset.sort_singleton _ _
      simp only [dog_log_instrumented, hsort]
      rw [show (match (mk_wrapper_static d pathname line).enter_extras with
            | some j => j.attrNames.length
            | none => 0) = 0 from rfl]
      rw [show (0 + [">x"].length + 1) = 1 + 1 from rfl]
      rw [run_once_iterate_fresh]

/-- Concrete template referencing the computed field `>x` twice. -/
def c10Template : Template := [⟨"a ", some ">x"⟩, ⟨" b ", some ">x"⟩]

/-- Witness for C10 at a concrete computer configuration whose template
repeats `>x`: the instrumented event evaluates the chain once and invokes
the method once. -/
theorem C10_witness :
    ∃ d w,
      dog_init (.seqSpec [.strPart c10Template,
          .computerPart ⟨[("x", fun _ => Value.int 9)], []⟩])
        .noSpec .noSpec [] true false .noneVal = .ok d ∧
      dog_call_modelled d ⟨[], none, none⟩ "f.py" 8 = .ok w ∧
      w.enter_computed_arg_names = {">x"} ∧
      dog_log_instrumented false (some INFO) c10Template w.enter_extras
          w.enter_computer w.enter_computed_arg_names [[("k", Value.int 0)]] =
        (dog_log false (some INFO) c10Template w.enter_extras w.enter_computer
          w.enter_computed_arg_names [[("k", Value.int 0)]], 1, [">x"]) := by
  obtain ⟨d, w, hd, hw, hset, hinst⟩ := C10_lazy_once_per_event.2 c10Template
    (fun _ => Value.int 9) (by decide) (by decide) true false .noneVal "f.py" 8
  exact ⟨d, w, hd, hw, hset, (hinst false (some INFO) [[("k", Value.int 0)]]).1⟩

end Dogging
